import Mathlib

/-!
Verification development for the mathGPT sequence-construction and batching
pipeline (`loading.py`).  The data model (`Sequence`, `TokenType`, constants)
lives in the repository's `data_types.py` / `constants.py`, which are not part
of the sources given here; those parts are modelled from the specification and
marked as such.  Everything else is a direct shallow embedding of `loading.py`.
-/

namespace MathGPT

/-- Modelled from the spec: token type enumeration
`TEXT, START_FORMULA, END_FORMULA, OP, VAR, NUM, END`
(`constants.py` is not among the given sources). -/
inductive TokenType where
  | TEXT
  | START_FORMULA
  | END_FORMULA
  | OP
  | VAR
  | NUM
  | END
deriving DecidableEq, Repr

/-- Modelled from the spec: the integer value of a token type as used in
tensors (the enumeration order of the spec, values 0..6). -/
def TokenType.toVal : TokenType → Nat
  | .TEXT => 0
  | .START_FORMULA => 1
  | .END_FORMULA => 2
  | .OP => 3
  | .VAR => 4
  | .NUM => 5
  | .END => 6

/-- Modelled from the spec: the padding sentinel for token ids and generative
labels, a value distinguishable from all real (nonnegative) vocabulary ids
(`constants.py` is not among the given sources). -/
def PADDING_TOKEN_ID : Int := -100

/-- Modelled from the spec: the fixed length of tree-position vectors. -/
def POS_VEC_SIZE : Nat := 32

/-- Modelled from the spec: the empty (all-zero) position vector attached to
non-formula tokens (`math_tokenize.py` is not among the given sources). -/
def EMPTY_POS_VECTOR : List Int := List.replicate POS_VEC_SIZE 0

/-- Modelled from the spec: the reserved formula placeholder marker used to
split article text (`constants.py` is not among the given sources). -/
def FORMULA_IDENTIFIER : String := "[FORMULA]"

/-- Modelled from the spec: the end-of-sequence marker appended to label and
answer texts (`constants.py` is not among the given sources). -/
def EOS_TOKEN : String := "<|endoftext|>"

/-- Modelled from the spec: the tree-position-encoding mode value meaning
"no position encodings" (`TPE.NONE.value`). -/
def TPE_NONE : String := "none"

/-- Modelled from the spec: task-specific metadata attached to a sequence
(`prompt_length` for generative tasks, `label` / `problem_id` /
`problem_log_id` for classification tasks); a dictionary in the source,
modelled as a record of optional fields. -/
structure SeqMeta where
  prompt_length : Option Nat
  label : Option Nat
  problem_id : Option Nat
  problem_log_id : Option Nat
deriving DecidableEq, Repr

/-- The all-absent metadata (a fresh sequence has no task metadata). -/
def SeqMeta.empty : SeqMeta := ⟨none, none, none, none⟩

/-- Modelled from the spec: a `Sequence` is an ordered multi-channel record of
tokens (all channels kept in lock-step) plus a provenance name and metadata
(`data_types.py` is not among the given sources).  The optional `gpt_tokens`
channel is only populated when sub-token sharing is enabled. -/
structure Sequence where
  name : String
  token_ids : List Int
  token_types : List TokenType
  pos_vecs : List (List Int)
  pos_levels : List Int
  gpt_tokens : List (List Int)
  meta : SeqMeta
deriving DecidableEq, Repr

/-- Length of a sequence (`len(sequence)`): the number of tokens. -/
def Sequence.len (s : Sequence) : Nat := s.token_ids.length

/-- Lock-step invariant: the main per-token channels have equal length. -/
def Sequence.WF (s : Sequence) : Prop :=
  s.token_types.length = s.token_ids.length ∧
  s.pos_vecs.length = s.token_ids.length ∧
  s.pos_levels.length = s.token_ids.length

instance (s : Sequence) : Decidable s.WF := by
  unfold Sequence.WF; infer_instance

/-- The empty sequence with a given name. -/
def Sequence.empty (name : String) : Sequence :=
  ⟨name, [], [], [], [], [], SeqMeta.empty⟩

/-- Modelled from the spec: `split_at` slices a sequence at a token boundary
into two contiguous sub-sequences, channel-wise. -/
def Sequence.split_at (s : Sequence) (i : Nat) : Sequence × Sequence :=
  (⟨s.name, s.token_ids.take i, s.token_types.take i, s.pos_vecs.take i,
    s.pos_levels.take i, s.gpt_tokens.take i, s.meta⟩,
   ⟨s.name, s.token_ids.drop i, s.token_types.drop i, s.pos_vecs.drop i,
    s.pos_levels.drop i, s.gpt_tokens.drop i, s.meta⟩)

/-- Modelled from the spec: concatenation of sequences is channel-wise append;
the left operand provides the name, the right operand's metadata wins. -/
def Sequence.append (a b : Sequence) : Sequence :=
  ⟨a.name, a.token_ids ++ b.token_ids, a.token_types ++ b.token_types,
   a.pos_vecs ++ b.pos_vecs, a.pos_levels ++ b.pos_levels,
   a.gpt_tokens ++ b.gpt_tokens, b.meta⟩

/-! ### The sequence splitter (`split_sequence`, loading.py lines 15-47) -/

/-- Embeds `next((tok_idx for tok_idx in range(n - 1, -1, -1)
if sequence.token_types[tok_idx] == TokenType.TEXT), None)`:
the largest index below `n` holding a TEXT token, if any. -/
def findLastTextBefore (types : List TokenType) : Nat → Option Nat
  | 0 => none
  | n + 1 =>
    if types[n]? = some TokenType.TEXT then some n
    else findLastTextBefore types n

/-- Forward scan over `n` consecutive indices starting at `i` for the first
TEXT token. -/
def findFirstTextGo (types : List TokenType) : Nat → Nat → Option Nat
  | 0, _ => none
  | n + 1, i =>
    if types[i]? = some TokenType.TEXT then some i
    else findFirstTextGo types n (i + 1)

/-- Embeds `next((tok_idx for tok_idx in range(start, stop)
if sequence.token_types[tok_idx] == TokenType.TEXT), None)`:
the smallest index in `[start, stop)` holding a TEXT token, if any. -/
def findFirstTextFrom (types : List TokenType) (start stop : Nat) : Option Nat :=
  findFirstTextGo types (stop - start) start

/-- Python falsiness of an optional index: `not x` is true both for `None`
and for the index `0`.  The source tests `if not pre_form_text_tok_id:` and
`if not end_of_form:`, so an index equal to 0 is treated like "not found". -/
def isFalsy : Option Nat → Bool
  | none => true
  | some 0 => true
  | some (_ + 1) => false

/-- Fuel-indexed embedding of `split_sequence` (loading.py lines 15-47).
The Python function is recursive; each recursive call is on the tail of a
`split_at`, and the recursion is well-founded only when `max_seq_len ≥ 1`
(see the termination theorem), so the embedding consumes one unit of fuel
per recursive call. -/
def splitSequenceFuel : Nat → Sequence → Nat → List Sequence
  | 0, _, _ => []
  | fuel + 1, seq, max_seq_len =>
    let seq_len := seq.len
    if seq_len ≤ max_seq_len then [seq]
    else if seq.token_types[max_seq_len]? = some TokenType.TEXT then
      let pre_split := (seq.split_at max_seq_len).1
      let post_split := (seq.split_at max_seq_len).2
      pre_split :: splitSequenceFuel fuel post_split max_seq_len
    else
      let pre_form_text_tok_id := findLastTextBefore seq.token_types max_seq_len
      if isFalsy pre_form_text_tok_id then
        let end_of_form := findFirstTextFrom seq.token_types max_seq_len seq_len
        if isFalsy end_of_form then []
        else
          let post_split := (seq.split_at (end_of_form.getD 0)).2
          splitSequenceFuel fuel post_split max_seq_len
      else
        let k := pre_form_text_tok_id.getD 0
        let pre_split := (seq.split_at (k + 1)).1
        let post_split := (seq.split_at (k + 1)).2
        pre_split :: splitSequenceFuel fuel post_split max_seq_len

/-- The sequence splitter: `split_sequence(sequence, max_seq_len)` with enough
fuel for the whole recursion (each recursive call strictly shortens the
sequence when `max_seq_len ≥ 1`, so `seq.len + 1` units suffice). -/
def splitSequence (seq : Sequence) (max_seq_len : Nat) : List Sequence :=
  splitSequenceFuel (seq.len + 1) seq max_seq_len

/-- Instrumented version of the splitter that also records the spans the
source drops (tagged `false`); kept sub-sequences are tagged `true`.
It follows exactly the same branch structure as `splitSequenceFuel`. -/
def splitSequenceSegs : Nat → Sequence → Nat → List (Bool × Sequence)
  | 0, _, _ => []
  | fuel + 1, seq, max_seq_len =>
    let seq_len := seq.len
    if seq_len ≤ max_seq_len then [(true, seq)]
    else if seq.token_types[max_seq_len]? = some TokenType.TEXT then
      let pre_split := (seq.split_at max_seq_len).1
      let post_split := (seq.split_at max_seq_len).2
      (true, pre_split) :: splitSequenceSegs fuel post_split max_seq_len
    else
      let pre_form_text_tok_id := findLastTextBefore seq.token_types max_seq_len
      if isFalsy pre_form_text_tok_id then
        let end_of_form := findFirstTextFrom seq.token_types max_seq_len seq_len
        if isFalsy end_of_form then [(false, seq)]
        else
          let dropped := (seq.split_at (end_of_form.getD 0)).1
          let post_split := (seq.split_at (end_of_form.getD 0)).2
          (false, dropped) :: splitSequenceSegs fuel post_split max_seq_len
      else
        let k := pre_form_text_tok_id.getD 0
        let pre_split := (seq.split_at (k + 1)).1
        let post_split := (seq.split_at (k + 1)).2
        (true, pre_split) :: splitSequenceSegs fuel post_split max_seq_len

/-- The kept sub-sequences of an instrumented split. -/
def keptSegs (segs : List (Bool × Sequence)) : List Sequence :=
  segs.filterMap (fun p => if p.1 then some p.2 else none)

/-! ### Configuration and tasks -/

/-- The configuration surface consumed by the pipeline (`TrainOptions`;
only the fields `loading.py` reads are modelled). -/
structure TrainOptions where
  max_seq_len : Nat
  baseline : Bool
  post_proc : Bool
  shared_emb : Bool
  tpe : String
  num_classes : Nat
deriving DecidableEq, Repr

/-- Modelled from the spec: the downstream tasks (generative summarization,
answer scoring, feedback generation, problem solving);
`constants.py` is not among the given sources. -/
inductive DownstreamTask where
  | HEADLINES
  | ANSWER_SCORING
  | FEEDBACK
  | SOLVING
deriving DecidableEq, Repr

/-- Modelled from the spec: answer scoring is the classification task, the
remaining downstream tasks are generative (`utils.py` is not among the
given sources). -/
def is_cls_task : DownstreamTask → Bool
  | .ANSWER_SCORING => true
  | _ => false

/-! ### Collated batches (`CollatedBatch`, `Collator.__call__`, `trim_batch`) -/

/-- A collated batch: rectangular per-channel tensors (modelled as lists of
rows) plus mask, length, and label channels, mirroring `CollatedBatch`.
Floating-point payloads (position encodings) are modelled as integer
vectors; only their arrangement matters to the claims. -/
structure CollatedBatch where
  sources : List String
  token_ids : List (List Int)
  token_types : List (List Nat)
  pos_vecs : List (List (List Int))
  pos_levels : List (List Int)
  pos_encodings : Option (List (List (List Int)))
  gpt_tokens : Option (List (List (List Int)))
  use_shared_emb : Option (List (List Bool))
  attention_mask : List (List Nat)
  sequence_lengths : List Int
  prompt_lengths : Option (List Int)
  gen_labels : Option (List (List Int))
  cls_labels : Option (List Int)
deriving DecidableEq, Repr

/-- The length `torch.nn.utils.rnn.pad_sequence` pads to: the maximum row
length of the batch. -/
def rowsMax {α : Type} (rows : List (List α)) : Nat :=
  rows.foldl (fun acc r => max acc r.length) 0

/-- Embeds `torch.nn.utils.rnn.pad_sequence(rows, batch_first=True,
padding_value=v)`: right-pad every row to the batch maximum with `v`. -/
def padRows {α : Type} (rows : List (List α)) (v : α) : List (List α) :=
  rows.map (fun r => r ++ List.replicate (rowsMax rows - r.length) v)

/-- The maximum sequence length of a batch of sequences. -/
def batchMaxLen (batch : List Sequence) : Nat :=
  batch.foldl (fun acc s => max acc s.len) 0

/-- The generative label row of one sequence: a clone of its token ids with
the prompt region (indices below `meta.prompt_length`) overwritten by the
padding sentinel (`gen_label[:p] = PADDING_TOKEN_ID`). -/
def genLabelRow (s : Sequence) : List Int :=
  List.replicate (min (s.meta.prompt_length.getD 0) s.len) PADDING_TOKEN_ID ++
    s.token_ids.drop (s.meta.prompt_length.getD 0)

/-- Embeds `Collator.__call__` (loading.py lines 470-534).  The external
position-encoding functions `encode_pos` / `get_empty_pos_encoding`
(`math_tokenize.py`, not among the given sources) are passed as parameters. -/
def collate (task : Option DownstreamTask) (options : TrainOptions)
    (encode_pos : List Int → Int → String → List Int)
    (get_empty_pos_encoding : String → List Int)
    (batch : List Sequence) : CollatedBatch :=
  let max_gpt_token_len :=
    batch.foldl (fun acc s => s.gpt_tokens.foldl (fun a v => max a v.length) acc) 0
  let token_id_batches := batch.map Sequence.token_ids
  let token_type_batches := batch.map (fun s => s.token_types.map TokenType.toVal)
  let pos_vec_batches := batch.map Sequence.pos_vecs
  let pos_level_batches := batch.map Sequence.pos_levels
  let pos_encoding_batches :=
    if options.tpe ≠ TPE_NONE then
      batch.map (fun s =>
        (s.token_types.zip (s.pos_vecs.zip s.pos_levels)).map
          (fun p =>
            if p.1 = TokenType.TEXT ∨ p.1 = TokenType.START_FORMULA ∨
                p.1 = TokenType.END_FORMULA then
              get_empty_pos_encoding options.tpe
            else
              encode_pos p.2.1 p.2.2 options.tpe))
    else []
  let gpt_token_batches :=
    if options.shared_emb then
      batch.map (fun s => s.gpt_tokens.map
        (fun v => v ++ List.replicate (max_gpt_token_len - v.length) PADDING_TOKEN_ID))
    else []
  let use_shared_emb_batches :=
    if options.shared_emb then
      batch.map (fun s => s.gpt_tokens.map (fun v => decide (v.length ≠ 0)))
    else []
  let attention_mask := batch.map (fun s => List.replicate s.len (1 : Nat))
  let sequence_lengths := batch.map (fun s => (s.len : Int))
  let prompt_lengths :=
    match task with
    | some t =>
      if is_cls_task t then []
      else batch.map (fun s => ((s.meta.prompt_length.getD 0 : Nat) : Int))
    | none => []
  let gen_label_batches :=
    match task with
    | some t =>
      if is_cls_task t then []
      else batch.map genLabelRow
    | none => []
  let cls_labels :=
    match task with
    | some t =>
      if is_cls_task t then batch.map (fun s => ((s.meta.label.getD 0 : Nat) : Int))
      else []
    | none => []
  { sources := batch.map Sequence.name
    token_ids := padRows token_id_batches PADDING_TOKEN_ID
    token_types := padRows token_type_batches TokenType.TEXT.toVal
    pos_vecs := padRows pos_vec_batches EMPTY_POS_VECTOR
    pos_levels := padRows pos_level_batches 0
    pos_encodings :=
      if pos_encoding_batches.isEmpty then none
      else some (padRows pos_encoding_batches
        (List.replicate (get_empty_pos_encoding options.tpe).length 0))
    gpt_tokens :=
      if gpt_token_batches.isEmpty then none
      else some (padRows gpt_token_batches
        (List.replicate max_gpt_token_len PADDING_TOKEN_ID))
    use_shared_emb :=
      if use_shared_emb_batches.isEmpty then none
      else some (padRows use_shared_emb_batches false)
    attention_mask := padRows attention_mask 0
    sequence_lengths := sequence_lengths
    prompt_lengths := if prompt_lengths.isEmpty then none else some prompt_lengths
    gen_labels :=
      if gen_label_batches.isEmpty then none
      else some (padRows gen_label_batches PADDING_TOKEN_ID)
    cls_labels := if cls_labels.isEmpty then none else some cls_labels }

/-- Embeds tensor slicing `t[:, a:b]` along the sequence axis. -/
def sliceRows {α : Type} (rows : List (List α)) (a b : Nat) : List (List α) :=
  rows.map (fun r => (r.drop a).take (b - a))

/-- Embeds `trim_batch` (loading.py lines 445-463): restrict every
sequence-axis channel of a collated batch to `[trim_start, trim_end)` and
recompute `sequence_lengths` as
`min(trim_end - trim_start, max(seq_len - trim_start, 0))`. -/
def trim_batch (batch : CollatedBatch) (trim_start trim_end : Nat) : CollatedBatch :=
  { sources := batch.sources
    token_ids := sliceRows batch.token_ids trim_start trim_end
    token_types := sliceRows batch.token_types trim_start trim_end
    pos_vecs := sliceRows batch.pos_vecs trim_start trim_end
    pos_levels := sliceRows batch.pos_levels trim_start trim_end
    pos_encodings := batch.pos_encodings.map (fun t => sliceRows t trim_start trim_end)
    gpt_tokens := batch.gpt_tokens.map (fun t => sliceRows t trim_start trim_end)
    use_shared_emb := batch.use_shared_emb.map (fun t => sliceRows t trim_start trim_end)
    attention_mask := sliceRows batch.attention_mask trim_start trim_end
    sequence_lengths := batch.sequence_lengths.map
      (fun seq_len => min ((trim_end : Int) - (trim_start : Int))
        (max (seq_len - (trim_start : Int)) 0))
    prompt_lengths := batch.prompt_lengths
    gen_labels := batch.gen_labels.map (fun t => sliceRows t trim_start trim_end)
    cls_labels := batch.cls_labels }

/-! ### The sequence tokenizer (`tokenize_sequence`, loading.py lines 49-115) -/

/-- Modelled from the spec: an operator-tree node has a symbol, a type and
ordered children (the OPT tree is external input). -/
inductive OPT where
  | node (symbol : String) (type : TokenType) (children : List OPT)

/-- A formula: its LaTeX text and its operator tree. -/
structure Formula where
  tex : String
  opt : OPT

/-- The formula map of an article: stringified occurrence index to formula. -/
def FormulaMap : Type := String → Option Formula

/-- The external text tokenizer (`text_tokenizer()(chunk)["input_ids"]`). -/
def TextTokenizer : Type := String → List Int

/-- The external formula tokenizer (`tokenize_formula`, `math_tokenize.py`). -/
def FormulaTokenizer : Type := OPT → TrainOptions → Sequence

/-- The external formula decoder (`decode_formula`, `decode.py`). -/
def FormulaDecoder : Type := List Int → List TokenType → String

/-- A run of TEXT tokens appended to a sequence: token ids from the text
tokenizer, TEXT types, empty positions, level 0, and (when sub-token sharing
is on) empty sub-token lists. -/
def mkTextSegment (options : TrainOptions) (ids : List Int) : Sequence :=
  ⟨"", ids, List.replicate ids.length TokenType.TEXT,
   List.replicate ids.length EMPTY_POS_VECTOR, List.replicate ids.length 0,
   if options.shared_emb then List.replicate ids.length [] else [], SeqMeta.empty⟩

/-- A single structural marker token (`START_FORMULA` or `END_FORMULA`):
token id 0, empty position, level 0. -/
def mkMarkerSegment (options : TrainOptions) (t : TokenType) : Sequence :=
  ⟨"", [0], [t], [EMPTY_POS_VECTOR], [0],
   if options.shared_emb then [[]] else [], SeqMeta.empty⟩

/-- The tokens contributed by one present formula: in baseline mode the
formula is rendered back to delimited LaTeX text and tokenized as TEXT; in
structured mode it is the formula tokenizer's output wrapped in
START_FORMULA / END_FORMULA markers. -/
def formulaSegment (tt : TextTokenizer) (tf : FormulaTokenizer) (df : FormulaDecoder)
    (options : TrainOptions) (formula : Formula) : Sequence :=
  if options.baseline then
    let formula_text :=
      if options.post_proc then
        let formula_sequence := tf formula.opt options
        df formula_sequence.token_ids formula_sequence.token_types
      else formula.tex
    mkTextSegment options (tt (" <m> " ++ formula_text ++ " </m> "))
  else
    ((mkMarkerSegment options TokenType.START_FORMULA).append
      (tf formula.opt options)).append
      (mkMarkerSegment options TokenType.END_FORMULA)

/-- The loop body of `tokenize_sequence` over the text chunks obtained by
splitting on the formula placeholder: each chunk contributes its TEXT tokens;
between chunk `idx` and the next one, formula `idx` contributes its segment
when present and only bumps the missing-formula counter when absent; the
last chunk is followed by no formula. -/
def tokenizeChunksGo (tt : TextTokenizer) (tf : FormulaTokenizer) (df : FormulaDecoder)
    (options : TrainOptions) (formulas : FormulaMap) :
    List String → Nat → Sequence × Nat
  | [], _ => (Sequence.empty "", 0)
  | chunk :: rest, idx =>
    let textSeg := mkTextSegment options (tt chunk)
    if rest.isEmpty then (textSeg, 0)
    else
      match formulas (toString idx) with
      | none =>
        let r := tokenizeChunksGo tt tf df options formulas rest (idx + 1)
        (textSeg.append r.1, r.2 + 1)
      | some formula =>
        let r := tokenizeChunksGo tt tf df options formulas rest (idx + 1)
        ((textSeg.append (formulaSegment tt tf df options formula)).append r.1, r.2)

/-- Embeds `tokenize_sequence` (loading.py lines 49-115): split the text on
the placeholder marker and interleave text-tokenizer output with formula
segments, counting placeholders whose formula is missing from the map. -/
def tokenize_sequence (tt : TextTokenizer) (tf : FormulaTokenizer) (df : FormulaDecoder)
    (name : String) (text : String) (formulas : FormulaMap)
    (options : TrainOptions) : Sequence × Nat :=
  let r := tokenizeChunksGo tt tf df options formulas (text.splitOn FORMULA_IDENTIFIER) 0
  ({ r.1 with name := name }, r.2)

/-- The number of formula placeholders in a text: one less than the number of
chunks produced by splitting on the placeholder marker. -/
def numPlaceholders (text : String) : Nat :=
  (text.splitOn FORMULA_IDENTIFIER).length - 1

/-- The number of placeholders whose stringified occurrence index is absent
from the formula map. -/
def countMissingFormulas (text : String) (formulas : FormulaMap) : Nat :=
  (List.range (numPlaceholders text)).countP (fun i => (formulas (toString i)).isNone)

/-! ### The problem-solving dataset builder
(`ProblemSolvingDataset.__init__`, loading.py lines 400-425) -/

/-- A text field together with its formula map. -/
structure TextFormulas where
  text : String
  formulas : FormulaMap

/-- A problem-solving raw sample: problem, solution steps, final answer. -/
structure SolvingTaskSample where
  problem : TextFormulas
  steps : TextFormulas
  answer : TextFormulas

/-- The tokenized problem component (`"Question: " + text + " [SEP] Solution: "`). -/
def solvingProblemSeq (tt : TextTokenizer) (tf : FormulaTokenizer) (df : FormulaDecoder)
    (options : TrainOptions) (sample : SolvingTaskSample) : Sequence × Nat :=
  tokenize_sequence tt tf df ""
    ("Question: " ++ sample.problem.text ++ " [SEP] Solution: ")
    sample.problem.formulas options

/-- The tokenized steps component (`text + " [SEP] Final Answer: "`). -/
def solvingStepsSeq (tt : TextTokenizer) (tf : FormulaTokenizer) (df : FormulaDecoder)
    (options : TrainOptions) (sample : SolvingTaskSample) : Sequence × Nat :=
  tokenize_sequence tt tf df ""
    (sample.steps.text ++ " [SEP] Final Answer: ")
    sample.steps.formulas options

/-- The tokenized answer component (`text + EOS_TOKEN`). -/
def solvingAnswerSeq (tt : TextTokenizer) (tf : FormulaTokenizer) (df : FormulaDecoder)
    (options : TrainOptions) (sample : SolvingTaskSample) : Sequence × Nat :=
  tokenize_sequence tt tf df ""
    (sample.answer.text ++ EOS_TOKEN)
    sample.answer.formulas options

/-- The full concatenated sequence of a problem-solving sample. -/
def solvingFullSeq (tt : TextTokenizer) (tf : FormulaTokenizer) (df : FormulaDecoder)
    (options : TrainOptions) (sample : SolvingTaskSample) : Sequence :=
  ((solvingProblemSeq tt tf df options sample).1.append
    (solvingStepsSeq tt tf df options sample).1).append
    (solvingAnswerSeq tt tf df options sample).1

/-- Embeds the construction loop of `ProblemSolvingDataset.__init__`
(loading.py lines 400-425), returning
`(data, trimmed_sequences, num_missing_formulas)`: each sample contributes
the full concatenation of its three tokenized components with
`prompt_length` metadata covering the problem only; an over-long sequence
only increments the counter and is stored unmodified. -/
def problemSolvingInit (tt : TextTokenizer) (tf : FormulaTokenizer) (df : FormulaDecoder)
    (options : TrainOptions) : List SolvingTaskSample → List Sequence × Nat × Nat
  | [] => ([], 0, 0)
  | sample :: rest =>
    let p := solvingProblemSeq tt tf df options sample
    let st := solvingStepsSeq tt tf df options sample
    let a := solvingAnswerSeq tt tf df options sample
    let seq := (p.1.append st.1).append a.1
    let entry := { seq with meta := ⟨some p.1.len, none, none, none⟩ }
    let r := problemSolvingInit tt tf df options rest
    (entry :: r.1,
     (if options.max_seq_len < seq.len then 1 else 0) + r.2.1,
     (p.2 + st.2 + a.2) + r.2.2)

/-! ### The answer-scoring dataset (`AnswerScoringDataset`, loading.py
lines 261-355) -/

/-- The state of a constructed `AnswerScoringDataset` that `__getitem__`
reads: the per-sample data, the problem map, the example bank (problem id to
grade-indexed example lists), the static scaffold sequences, and the
grade-to-score-text sequences.  Dictionary lookups the source performs with
`[]` are modelled as total functions. -/
structure AnswerScoringState where
  options : TrainOptions
  data : List Sequence
  problems : Nat → Sequence
  example_bank : Nat → Option (Nat → List Sequence)
  qs_prefix_seq : Sequence
  scores_seq : Sequence
  example_prefix_seq : Sequence
  answer_prefix_seq : Sequence
  cls_seq : Sequence
  grade_to_score_seq : Nat → Sequence

/-- One iteration of the example-gathering loop of
`AnswerScoringDataset.__getitem__` (loading.py lines 330-335): filter out
examples whose `problem_log_id` equals the scored sample's, randomly sample
at most 5 of the rest (the random choice is the oracle `rsample`), put the
first in the initial group and the rest in the additional group. -/
def answerScoringGatherStep (st : AnswerScoringState)
    (rsample : List Sequence → Nat → List Sequence)
    (sample : Sequence) (bank : Nat → List Sequence)
    (acc : List Sequence × List Sequence) (grade : Nat) :
    List Sequence × List Sequence :=
  let examples := (bank grade).filter
    (fun e => e.meta.problem_log_id != sample.meta.problem_log_id)
  if examples.isEmpty then acc
  else
    let chosen := rsample examples (min examples.length 5)
    (acc.1 ++ chosen.take 1, acc.2 ++ chosen.drop 1)

/-- Embeds the example-gathering loop of `AnswerScoringDataset.__getitem__`
(loading.py lines 327-335): one gathering step per grade class. -/
def answerScoringGather (st : AnswerScoringState)
    (rsample : List Sequence → Nat → List Sequence)
    (sample : Sequence) (bank : Nat → List Sequence) :
    List Sequence × List Sequence :=
  (List.range st.options.num_classes).foldl
    (answerScoringGatherStep st rsample sample bank) ([], [])

/-- The initial and additional example groups gathered for a given index
(empty when the sample's problem has no entry in the example bank,
loading.py line 329). -/
def answerScoringGroups (st : AnswerScoringState)
    (rsample : List Sequence → Nat → List Sequence)
    (index : Nat) : List Sequence × List Sequence :=
  let sample := st.data.getD index (Sequence.empty "")
  match st.example_bank (sample.meta.problem_id.getD 0) with
  | some bank => answerScoringGather st rsample sample bank
  | none => ([], [])

/-- Embeds the budgeted example-selection loop of
`AnswerScoringDataset.__getitem__` (loading.py lines 340-347): wrap each
candidate in the example scaffold and keep adding until the next one would
exceed `max_seq_len`. -/
def answerScoringSelect (st : AnswerScoringState) (maxLen : Nat) :
    Nat → List Sequence → List Sequence
  | _, [] => []
  | base, e :: rest =>
    let example_seq := (st.example_prefix_seq.append e).append
      (st.grade_to_score_seq (e.meta.label.getD 0))
    if maxLen < base + example_seq.len then []
    else example_seq :: answerScoringSelect st maxLen (base + example_seq.len) rest

/-- The example sequences chosen by `AnswerScoringDataset.__getitem__` for a
given index; `rsample` and `rshuffle` are the random-sampling and shuffling
oracles (`random.sample` / `random.shuffle`). -/
def answerScoringExampleSeqs (st : AnswerScoringState)
    (rsample : List Sequence → Nat → List Sequence)
    (rshuffle : List Sequence → List Sequence)
    (index : Nat) : List Sequence :=
  let sample := st.data.getD index (Sequence.empty "")
  let problem_sequence := st.problems (sample.meta.problem_id.getD 0)
  let groups := answerScoringGroups st rsample index
  let initial_examples := rshuffle groups.1
  let additional_examples := rshuffle groups.2
  let base_len := st.qs_prefix_seq.len + problem_sequence.len + st.scores_seq.len +
    st.answer_prefix_seq.len + sample.len + st.cls_seq.len
  answerScoringSelect st st.options.max_seq_len base_len
    (initial_examples ++ additional_examples)

/-- The final assembly of `AnswerScoringDataset.__getitem__` (loading.py
lines 350-355): question scaffold, problem, scores listing, chosen examples,
answer scaffold, the scored answer, classification marker; the grade label is
attached as the only metadata. -/
def answerScoringAssemble (st : AnswerScoringState)
    (sample problem_sequence : Sequence) (exs : List Sequence) : Sequence :=
  let s0 := (st.qs_prefix_seq.append problem_sequence).append st.scores_seq
  let s1 := exs.foldl Sequence.append s0
  let s2 := ((s1.append st.answer_prefix_seq).append sample).append st.cls_seq
  { s2 with meta := ⟨none, sample.meta.label, none, none⟩ }

/-- Embeds `AnswerScoringDataset.__getitem__` (loading.py lines 320-355). -/
def answerScoringGetItem (st : AnswerScoringState)
    (rsample : List Sequence → Nat → List Sequence)
    (rshuffle : List Sequence → List Sequence)
    (index : Nat) : Sequence :=
  let sample := st.data.getD index (Sequence.empty "")
  answerScoringAssemble st sample (st.problems (sample.meta.problem_id.getD 0))
    (answerScoringExampleSeqs st rsample rshuffle index)

/-! ### Concrete instances used to evaluate the theorems -/

/-- A sequence starting with one TEXT token followed by a two-token formula
and a final TEXT token. -/
def c1ceSeq : Sequence :=
  ⟨"c1ce", [1, 2, 3, 4], [.TEXT, .OP, .END, .TEXT],
   List.replicate 4 [], List.replicate 4 0, [], SeqMeta.empty⟩

/-- A five-token sequence with a two-token formula in the middle. -/
def c1wSeq : Sequence :=
  ⟨"c1w", [10, 11, 12, 13, 14], [.TEXT, .TEXT, .OP, .VAR, .TEXT],
   List.replicate 5 [], List.replicate 5 0, [], SeqMeta.empty⟩

/-- A three-token all-text sequence. -/
def c9Seq : Sequence :=
  ⟨"c9", [1, 2, 3], [.TEXT, .TEXT, .TEXT],
   List.replicate 3 [], List.replicate 3 0, [], SeqMeta.empty⟩

/-- A one-token TEXT sequence. -/
def c2Seq1 : Sequence := ⟨"c2a", [5], [.TEXT], [[]], [0], [], SeqMeta.empty⟩

/-- A two-token sequence (TEXT then a formula token). -/
def c2Seq2 : Sequence := ⟨"c2b", [6, 7], [.TEXT, .OP], [[], []], [0, 1], [], SeqMeta.empty⟩

/-- Plain options: structured mode, no shared embeddings, no tree position
encodings. -/
def c2Opts : TrainOptions := ⟨10, false, false, false, TPE_NONE, 5⟩

/-- A trivial external position encoder. -/
def c2ep : List Int → Int → String → List Int := fun _ _ _ => []

/-- A trivial external empty-position encoder. -/
def c2gep : String → List Int := fun _ => []

/-- A one-token TEXT sequence for the collation-row theorem. -/
def c3Seq1 : Sequence := ⟨"c3a", [8], [.TEXT], [[]], [0], [], SeqMeta.empty⟩

/-- A three-token sequence for the collation-row theorem. -/
def c3Seq2 : Sequence :=
  ⟨"c3b", [9, 10, 11], [.TEXT, .OP, .END], [[], [], []], [0, 1, 1], [], SeqMeta.empty⟩

/-- Plain options for the collation-row theorem. -/
def c3Opts : TrainOptions := ⟨10, false, false, false, TPE_NONE, 5⟩

/-- A trivial external position encoder. -/
def c3ep : List Int → Int → String → List Int := fun _ _ _ => []

/-- A trivial external empty-position encoder. -/
def c3gep : String → List Int := fun _ => []

/-- A generative-task sequence with a two-token prompt. -/
def c4Seq : Sequence :=
  ⟨"c4", [20, 21, 22, 23], [.TEXT, .TEXT, .TEXT, .TEXT],
   List.replicate 4 [], List.replicate 4 0, [], ⟨some 2, none, none, none⟩⟩

/-- A second, shorter generative-task sequence. -/
def c4Seq2 : Sequence :=
  ⟨"c4b", [30], [.TEXT], [[]], [0], [], ⟨some 0, none, none, none⟩⟩

/-- Plain options for the gen-label theorem. -/
def c4Opts : TrainOptions := ⟨10, false, false, false, TPE_NONE, 5⟩

/-- A trivial external position encoder. -/
def c4ep : List Int → Int → String → List Int := fun _ _ _ => []

/-- A trivial external empty-position encoder. -/
def c4gep : String → List Int := fun _ => []

/-- A collated batch holding one row of length 1. -/
def c5Batch : CollatedBatch :=
  ⟨["s"], [[1]], [[0]], [[[]]], [[0]], none, none, none, [[1]], [1], none, none, none⟩

/-- A collated batch holding one row of length 4. -/
def c6Batch : CollatedBatch :=
  ⟨["t"], [[1, 2, 3, 4]], [[0, 0, 3, 0]], [[[], [], [], []]], [[0, 0, 1, 0]],
   none, none, none, [[1, 1, 1, 1]], [4], some [2], some [[1, 2, 3, 4]], none⟩

/-- A text tokenizer for evaluation: one token per chunk carrying its length. -/
def c7tt : TextTokenizer := fun s => [(s.length : Int)]

/-- A formula tokenizer for evaluation: a single OP token. -/
def c7tf : FormulaTokenizer := fun _ _ => ⟨"", [9], [.OP], [[]], [1], [], SeqMeta.empty⟩

/-- A formula decoder for evaluation. -/
def c7df : FormulaDecoder := fun _ _ => ""

/-- Plain options for the tokenizer theorem. -/
def c7Opts : TrainOptions := ⟨10, false, false, false, TPE_NONE, 5⟩

/-- A text with exactly one formula placeholder. -/
def c7Text : String := "ab" ++ FORMULA_IDENTIFIER ++ "c"

/-- The empty formula map. -/
def c7Map : FormulaMap := fun _ => none

/-- A text tokenizer for the problem-solving theorem: two tokens per chunk. -/
def c8tt : TextTokenizer := fun s => [(s.length : Int), 0]

/-- A formula tokenizer for the problem-solving theorem. -/
def c8tf : FormulaTokenizer := fun _ _ => ⟨"", [9], [.OP], [[]], [1], [], SeqMeta.empty⟩

/-- A formula decoder for the problem-solving theorem. -/
def c8df : FormulaDecoder := fun _ _ => ""

/-- Options whose maximum sequence length the evaluation sample exceeds. -/
def c8Opts : TrainOptions := ⟨5, false, false, false, TPE_NONE, 5⟩

/-- The empty formula map for the problem-solving theorem. -/
def c8Map : FormulaMap := fun _ => none

/-- A problem-solving sample whose concatenation exceeds the length budget. -/
def c8Sample : SolvingTaskSample := ⟨⟨"p", c8Map⟩, ⟨"s", c8Map⟩, ⟨"a", c8Map⟩⟩

/-- A stored worked example with `problem_log_id` 8. -/
def c10Ex : Sequence := ⟨"ex0", [1], [.TEXT], [[]], [0], [], ⟨none, some 0, some 0, some 8⟩⟩

/-- The answer being scored, with `problem_log_id` 7. -/
def c10Sample : Sequence := ⟨"smp", [2], [.TEXT], [[]], [0], [], ⟨none, some 0, some 0, some 7⟩⟩

/-- A small answer-scoring dataset state: one scored answer, one candidate
worked example for grade 0 under the same problem. -/
def c10St : AnswerScoringState :=
  { options := ⟨100, false, false, false, TPE_NONE, 1⟩
    data := [c10Sample]
    problems := fun _ => Sequence.empty "prob"
    example_bank := fun pid => if pid = 0 then some (fun _ => [c10Ex]) else none
    qs_prefix_seq := Sequence.empty "qs"
    scores_seq := Sequence.empty "sc"
    example_prefix_seq := Sequence.empty "exp"
    answer_prefix_seq := Sequence.empty "ap"
    cls_seq := Sequence.empty "cls"
    grade_to_score_seq := fun _ => Sequence.empty "gs" }

/-! ## Theorems -/

/-- The head of a positive-length prefix is the head of the list. -/
theorem head?_take_pos {α : Type} (l : List α) (n : Nat) (h : 1 ≤ n) :
    (l.take n).head? = l.head? := by
  obtain ⟨m, rfl⟩ : ∃ m, n = m + 1 := ⟨n - 1, by omega⟩
  cases l <;> simp

/-- The last element of `take (k+1)` is the element at index `k`. -/
theorem getLast?_take_succ {α : Type} (l : List α) (k : Nat) (h : k < l.length) :
    (l.take (k + 1)).getLast? = l[k]? := by
  rw [List.getLast?_eq_getElem?, List.length_take]
  have hmin : min (k + 1) l.length = k + 1 := by omega
  rw [hmin]
  simp only [Nat.add_sub_cancel, List.getElem?_take, Nat.lt_succ_self, if_pos]

/-- The two halves of `split_at` have the expected lengths. -/
theorem split_at_len (s : Sequence) (i : Nat) :
    ((s.split_at i).1).len = min i s.len ∧ ((s.split_at i).2).len = s.len - i := by
  simp [Sequence.split_at, Sequence.len]

/-- `split_at` preserves the lock-step invariant. -/
theorem split_at_WF (s : Sequence) (i : Nat) (h : s.WF) :
    (s.split_at i).1.WF ∧ (s.split_at i).2.WF := by
  obtain ⟨h1, h2, h3⟩ := h
  constructor <;>
    simp [Sequence.split_at, Sequence.WF, h1, h2, h3]

/-- When the backward text scan finds nothing, no index below `n` is TEXT. -/
theorem findLastTextBefore_none {types : List TokenType} {n : Nat}
    (h : findLastTextBefore types n = none) :
    ∀ i, i < n → types[i]? ≠ some TokenType.TEXT := by
  induction n with
  | zero => intro i hi; omega
  | succ m ih =>
    intro i hi
    unfold findLastTextBefore at h
    split at h
    · exact absurd h (by simp)
    · rcases Nat.lt_succ_iff_lt_or_eq.mp hi with h2 | h2
      · exact ih h i h2
      · subst h2; assumption

/-- When the backward text scan finds `k`, it is the largest TEXT index
below `n`. -/
theorem findLastTextBefore_some {types : List TokenType} {n k : Nat}
    (h : findLastTextBefore types n = some k) :
    k < n ∧ types[k]? = some TokenType.TEXT ∧
      ∀ i, k < i → i < n → types[i]? ≠ some TokenType.TEXT := by
  induction n with
  | zero => simp [findLastTextBefore] at h
  | succ m ih =>
    unfold findLastTextBefore at h
    split at h
    · rename_i htext
      obtain rfl : m = k := by injection h
      refine ⟨Nat.lt_succ_self m, htext, ?_⟩
      intro i h1 h2; omega
    · rename_i htext
      obtain ⟨h1, h2, h3⟩ := ih h
      refine ⟨by omega, h2, ?_⟩
      intro i hki him
      rcases Nat.lt_succ_iff_lt_or_eq.mp him with h4 | h4
      · exact h3 i hki h4
      · subst h4; exact htext

/-- When the forward scan over `n` indices finds nothing, none of them is
TEXT. -/
theorem findFirstTextGo_none {types : List TokenType} :
    ∀ {n i : Nat}, findFirstTextGo types n i = none →
      ∀ j, i ≤ j → j < i + n → types[j]? ≠ some TokenType.TEXT := by
  intro n
  induction n with
  | zero => intro i _ j h1 h2; omega
  | succ m ih =>
    intro i h j h1 h2
    unfold findFirstTextGo at h
    split at h
    · exact absurd h (by simp)
    · rename_i htext
      rcases Nat.eq_or_lt_of_le h1 with h3 | h3
      · subst h3; exact htext
      · exact ih h j h3 (by omega)

/-- When the forward scan over `n` indices finds `k`, it is the smallest
TEXT index among them. -/
theorem findFirstTextGo_some {types : List TokenType} :
    ∀ {n i k : Nat}, findFirstTextGo types n i = some k →
      i ≤ k ∧ k < i + n ∧ types[k]? = some TokenType.TEXT ∧
        ∀ j, i ≤ j → j < k → types[j]? ≠ some TokenType.TEXT := by
  intro n
  induction n with
  | zero => intro i k h; exact absurd h (by simp [findFirstTextGo])
  | succ m ih =>
    intro i k h
    unfold findFirstTextGo at h
    split at h
    · rename_i htext
      obtain rfl : i = k := by injection h
      exact ⟨le_rfl, by omega, htext, fun j h1 h2 => by omega⟩
    · rename_i htext
      obtain ⟨h1, h2, h3, h4⟩ := ih h
      refine ⟨by omega, by omega, h3, ?_⟩
      intro j hj1 hj2
      rcases Nat.eq_or_lt_of_le hj1 with h5 | h5
      · subst h5; exact htext
      · exact h4 j h5 hj2

/-- When the forward text scan finds nothing, no index in `[start, stop)`
is TEXT. -/
theorem findFirstTextFrom_none {types : List TokenType} {start stop : Nat}
    (h : findFirstTextFrom types start stop = none) :
    ∀ i, start ≤ i → i < stop → types[i]? ≠ some TokenType.TEXT := by
  intro i h1 h2
  exact findFirstTextGo_none h i h1 (by omega)

/-- When the forward text scan finds `k`, it is the smallest TEXT index in
`[start, stop)`. -/
theorem findFirstTextFrom_some {types : List TokenType} {start stop k : Nat}
    (h : findFirstTextFrom types start stop = some k) :
    start ≤ k ∧ k < stop ∧ types[k]? = some TokenType.TEXT ∧
      ∀ i, start ≤ i → i < k → types[i]? ≠ some TokenType.TEXT := by
  obtain ⟨h1, h2, h3, h4⟩ := findFirstTextGo_some h
  exact ⟨h1, by omega, h3, h4⟩

/-- Python falsiness characterization: an optional index is truthy exactly
when it is a successor index. -/
theorem isFalsy_eq_false {o : Option Nat} :
    isFalsy o = false ↔ ∃ m, o = some (m + 1) := by
  cases o with
  | none => simp [isFalsy]
  | some n => cases n <;> simp [isFalsy]

/-- The splitter's result does not depend on the fuel, as long as the fuel
exceeds the sequence length: each recursive call of `split_sequence` is on a
strictly shorter sequence once `max_seq_len ≥ 1`. -/
theorem splitSequenceFuel_irrel :
    ∀ (n : Nat) (seq : Sequence) (L f1 f2 : Nat), seq.len ≤ n → 1 ≤ L →
      seq.len < f1 → seq.len < f2 →
      splitSequenceFuel f1 seq L = splitSequenceFuel f2 seq L := by
  intro n
  induction n with
  | zero =>
    intro seq L f1 f2 hn hL h1 h2
    obtain ⟨a, rfl⟩ : ∃ a, f1 = a + 1 := ⟨f1 - 1, by omega⟩
    obtain ⟨b, rfl⟩ : ∃ b, f2 = b + 1 := ⟨f2 - 1, by omega⟩
    have hfit : seq.len ≤ L := by omega
    simp [splitSequenceFuel, hfit]
  | succ n ih =>
    intro seq L f1 f2 hn hL h1 h2
    obtain ⟨a, rfl⟩ : ∃ a, f1 = a + 1 := ⟨f1 - 1, by omega⟩
    obtain ⟨b, rfl⟩ : ∃ b, f2 = b + 1 := ⟨f2 - 1, by omega⟩
    by_cases hfit : seq.len ≤ L
    · simp [splitSequenceFuel, hfit]
    · simp only [splitSequenceFuel, if_neg hfit]
      by_cases htext : seq.token_types[L]? = some TokenType.TEXT
      · simp only [if_pos htext]
        have hpost : ((seq.split_at L).2).len = seq.len - L := (split_at_len seq L).2
        congr 1
        exact ih _ L a b (by omega) hL (by omega) (by omega)
      · simp only [if_neg htext]
        by_cases hpre : isFalsy (findLastTextBefore seq.token_types L) = true
        · simp only [hpre, if_true]
          by_cases hend : isFalsy (findFirstTextFrom seq.token_types L seq.len) = true
          · simp [hend]
          · simp only [hend, Bool.false_eq_true, if_false]
            rw [Bool.not_eq_true] at hend
            obtain ⟨m, hm⟩ := isFalsy_eq_false.mp hend
            have hsome := findFirstTextFrom_some hm
            rw [hm]
            have hpost : ((seq.split_at ((some (m + 1) : Option Nat).getD 0)).2).len =
                seq.len - (m + 1) := (split_at_len seq _).2
            exact ih _ L a b (by simp at hpost ⊢; omega) hL
              (by simp at hpost ⊢; omega) (by simp at hpost ⊢; omega)
        · simp only [hpre, Bool.false_eq_true, if_false]
          rw [Bool.not_eq_true] at hpre
          obtain ⟨m, hm⟩ := isFalsy_eq_false.mp hpre
          have hsome := findLastTextBefore_some hm
          rw [hm]
          have hpost : ((seq.split_at ((some (m + 1) : Option Nat).getD 0 + 1)).2).len =
              seq.len - (m + 2) := (split_at_len seq _).2
          congr 1
          exact ih _ L a b (by simp at hpost ⊢; omega) hL
            (by simp at hpost ⊢; omega) (by simp at hpost ⊢; omega)

/-- C9: for every sequence and every maximum length of at least 1, the
recursion of `split_sequence` is well-founded on sequence length: every
recursive call strictly shortens the sequence, so any fuel exceeding the
sequence length computes the same (terminating) result. -/
theorem split_sequence_terminates (seq : Sequence) (L fuel : Nat)
    (hL : 1 ≤ L) (hfuel : seq.len < fuel) :
    splitSequenceFuel fuel seq L = splitSequence seq L :=
  splitSequenceFuel_irrel seq.len seq L fuel (seq.len + 1) le_rfl hL hfuel (by omega)

/-- Witness for the termination theorem at a concrete input. -/
theorem split_sequence_terminates_witness :
    1 ≤ 2 ∧ c9Seq.len < 9 ∧ splitSequenceFuel 9 c9Seq 2 = splitSequence c9Seq 2 :=
  ⟨by decide, by decide, split_sequence_terminates c9Seq 2 9 (by decide) (by decide)⟩

/-- Python falsiness of an optional index holds exactly for `None` and `0`. -/
theorem isFalsy_eq_true {o : Option Nat} :
    isFalsy o = true ↔ o = none ∨ o = some 0 := by
  cases o with
  | none => simp [isFalsy]
  | some n => cases n <;> simp [isFalsy]

/-- The kept part of a cons cell of tagged segments. -/
theorem keptSegs_cons (b : Bool) (s : Sequence) (rest : List (Bool × Sequence)) :
    keptSegs ((b, s) :: rest) = if b then s :: keptSegs rest else keptSegs rest := by
  cases b <;> simp [keptSegs]

/-- The kept segments of the instrumented splitter are exactly the result of
the splitter. -/
theorem keptSegs_eq_splitSequenceFuel :
    ∀ (fuel : Nat) (seq : Sequence) (L : Nat),
      keptSegs (splitSequenceSegs fuel seq L) = splitSequenceFuel fuel seq L := by
  intro fuel
  induction fuel with
  | zero => intro seq L; rfl
  | succ n ih =>
    intro seq L
    simp only [splitSequenceSegs, splitSequenceFuel]
    by_cases hfit : seq.len ≤ L
    · simp [hfit, keptSegs]
    · simp only [if_neg hfit]
      by_cases htext : seq.token_types[L]? = some TokenType.TEXT
      · simp only [if_pos htext]
        rw [keptSegs_cons]
        simp [ih]
      · simp only [if_neg htext]
        by_cases hpre : isFalsy (findLastTextBefore seq.token_types L) = true
        · simp only [hpre, if_true]
          by_cases hend : isFalsy (findFirstTextFrom seq.token_types L seq.len) = true
          · simp [hend, keptSegs]
          · simp only [hend, Bool.false_eq_true, if_false]
            rw [keptSegs_cons]
            simp [ih]
        · simp only [hpre, Bool.false_eq_true, if_false]
          rw [keptSegs_cons]
          simp [ih]

/-- Every sub-sequence the splitter returns has length at most the limit. -/
theorem splitSequenceFuel_len_le :
    ∀ (fuel : Nat) (seq : Sequence) (L : Nat),
      ∀ s ∈ splitSequenceFuel fuel seq L, s.len ≤ L := by
  intro fuel
  induction fuel with
  | zero => intro seq L s hs; simp [splitSequenceFuel] at hs
  | succ n ih =>
    intro seq L s hs
    simp only [splitSequenceFuel] at hs
    by_cases hfit : seq.len ≤ L
    · rw [if_pos hfit] at hs
      simp at hs
      subst hs
      exact hfit
    · rw [if_neg hfit] at hs
      by_cases htext : seq.token_types[L]? = some TokenType.TEXT
      · rw [if_pos htext] at hs
        rcases List.mem_cons.mp hs with h | h
        · subst h
          have := (split_at_len seq L).1
          omega
        · exact ih _ L s h
      · rw [if_neg htext] at hs
        by_cases hpre : isFalsy (findLastTextBefore seq.token_types L) = true
        · rw [if_pos hpre] at hs
          by_cases hend : isFalsy (findFirstTextFrom seq.token_types L seq.len) = true
          · simp [hend] at hs
          · rw [if_neg (by simp [hend])] at hs
            exact ih _ L s hs
        · rw [if_neg (by simp [hpre])] at hs
          rw [Bool.not_eq_true] at hpre
          obtain ⟨m, hm⟩ := isFalsy_eq_false.mp hpre
          have hfacts := findLastTextBefore_some hm
          rw [hm] at hs
          rcases List.mem_cons.mp hs with h | h
          · subst h
            have := (split_at_len seq ((some (m + 1) : Option Nat).getD 0 + 1)).1
            simp at this ⊢
            omega
          · exact ih _ L s h

/-- The instrumented segments concatenate, channel-wise, to the original
sequence: generic over any channel that `split_at` splits by take and drop. -/
theorem segs_flatten_chan {α : Type} (f : Sequence → List α)
    (hf1 : ∀ s k, f ((s.split_at k).1) = (f s).take k)
    (hf2 : ∀ s k, f ((s.split_at k).2) = (f s).drop k) :
    ∀ (fuel : Nat) (seq : Sequence) (L : Nat), 1 ≤ L → seq.len < fuel →
      ((splitSequenceSegs fuel seq L).map (fun p => f p.2)).flatten = f seq := by
  intro fuel
  induction fuel with
  | zero => intro seq L hL hlt; exact absurd hlt (by omega)
  | succ n ih =>
    intro seq L hL hlt
    simp only [splitSequenceSegs]
    by_cases hfit : seq.len ≤ L
    · simp [hfit]
    · simp only [if_neg hfit]
      by_cases htext : seq.token_types[L]? = some TokenType.TEXT
      · simp only [if_pos htext]
        have hlen := (split_at_len seq L).2
        rw [List.map_cons, List.flatten_cons, ih _ L hL (by omega), hf1, hf2]
        exact List.take_append_drop L (f seq)
      · simp only [if_neg htext]
        by_cases hpre : isFalsy (findLastTextBefore seq.token_types L) = true
        · simp only [hpre, if_true]
          by_cases hend : isFalsy (findFirstTextFrom seq.token_types L seq.len) = true
          · simp [hend]
          · simp only [hend, Bool.false_eq_true, if_false]
            rw [Bool.not_eq_true] at hend
            obtain ⟨m, hm⟩ := isFalsy_eq_false.mp hend
            rw [hm]
            simp only [Option.getD_some]
            have hlen := (split_at_len seq (m + 1)).2
            rw [List.map_cons, List.flatten_cons, ih _ L hL (by omega), hf1, hf2]
            exact List.take_append_drop (m + 1) (f seq)
        · simp only [hpre, Bool.false_eq_true, if_false]
          rw [Bool.not_eq_true] at hpre
          obtain ⟨m, hm⟩ := isFalsy_eq_false.mp hpre
          rw [hm]
          simp only [Option.getD_some]
          have hlen := (split_at_len seq (m + 1 + 1)).2
          rw [List.map_cons, List.flatten_cons, ih _ L hL (by omega), hf1, hf2]
          exact List.take_append_drop (m + 1 + 1) (f seq)

/-- Every dropped span of the instrumented splitter is longer than the limit
and holds no TEXT token beyond its first position. -/
theorem segs_dropped :
    ∀ (fuel : Nat) (seq : Sequence) (L : Nat), 1 ≤ L → seq.WF → seq.len < fuel →
      ∀ p ∈ splitSequenceSegs fuel seq L, p.1 = false →
        L < p.2.len ∧ ∀ j, 1 ≤ j → p.2.token_types[j]? ≠ some TokenType.TEXT := by
  intro fuel
  induction fuel with
  | zero => intro seq L hL hwf hlt; exact absurd hlt (by omega)
  | succ n ih =>
    intro seq L hL hwf hlt p hp hfalse
    simp only [splitSequenceSegs] at hp
    by_cases hfit : seq.len ≤ L
    · rw [if_pos hfit] at hp
      simp at hp
      rw [hp] at hfalse
      simp at hfalse
    · rw [if_neg hfit] at hp
      by_cases htext : seq.token_types[L]? = some TokenType.TEXT
      · rw [if_pos htext] at hp
        rcases List.mem_cons.mp hp with h | h
        · rw [h] at hfalse; simp at hfalse
        · have hlen := (split_at_len seq L).2
          exact ih _ L hL (split_at_WF seq L hwf).2 (by omega) p h hfalse
      · rw [if_neg htext] at hp
        by_cases hpre : isFalsy (findLastTextBefore seq.token_types L) = true
        · rw [if_pos hpre] at hp
          have hlow : ∀ i, 1 ≤ i → i < L →
              seq.token_types[i]? ≠ some TokenType.TEXT := by
            intro i h1 h2
            rcases isFalsy_eq_true.mp hpre with h | h
            · exact findLastTextBefore_none h i h2
            · exact (findLastTextBefore_some h).2.2 i (by omega) h2
          by_cases hend : isFalsy (findFirstTextFrom seq.token_types L seq.len) = true
          · rw [if_pos hend] at hp
            simp at hp
            rw [hp]
            refine ⟨by show L < seq.len; omega, ?_⟩
            intro j hj1
            show seq.token_types[j]? ≠ some TokenType.TEXT
            by_cases hjL : j < L
            · exact hlow j hj1 hjL
            · by_cases hjlen : j < seq.len
              · rcases isFalsy_eq_true.mp hend with h | h
                · exact findFirstTextFrom_none h j (by omega) hjlen
                · exact absurd (findFirstTextFrom_some h).1 (by omega)
              · have hnone : seq.token_types.length ≤ j := by
                  have := hwf.1
                  unfold Sequence.len at hjlen
                  omega
                simp [List.getElem?_eq_none hnone]
          · rw [if_neg hend] at hp
            rw [Bool.not_eq_true] at hend
            obtain ⟨m, hm⟩ := isFalsy_eq_false.mp hend
            rw [hm] at hp
            simp only [Option.getD_some] at hp
            rcases List.mem_cons.mp hp with h | h
            · rw [h]
              obtain ⟨he1, he2, he3, he4⟩ := findFirstTextFrom_some hm
              have hLm : L < m + 1 := by
                rcases Nat.lt_or_ge L (m + 1) with h5 | h5
                · exact h5
                · have h6 : L = m + 1 := by omega
                  rw [h6] at htext
                  exact absurd he3 htext
              constructor
              · have := (split_at_len seq (m + 1)).1
                show L < ((seq.split_at (m + 1)).1).len
                omega
              · intro j hj1
                show ((seq.split_at (m + 1)).1).token_types[j]? ≠
                  some TokenType.TEXT
                simp only [Sequence.split_at]
                rw [List.getElem?_take]
                by_cases hjm : j < m + 1
                · rw [if_pos hjm]
                  by_cases hjL : j < L
                  · exact hlow j hj1 hjL
                  · exact he4 j (by omega) hjm
                · rw [if_neg hjm]
                  simp
            · have hlen := (split_at_len seq (m + 1)).2
              exact ih _ L hL (split_at_WF seq _ hwf).2 (by omega) p h hfalse
        · rw [if_neg hpre] at hp
          rw [Bool.not_eq_true] at hpre
          obtain ⟨m, hm⟩ := isFalsy_eq_false.mp hpre
          rw [hm] at hp
          simp only [Option.getD_some] at hp
          rcases List.mem_cons.mp hp with h | h
          · rw [h] at hfalse
            simp at hfalse
          · have hlen := (split_at_len seq (m + 1 + 1)).2
            exact ih _ L hL (split_at_WF seq _ hwf).2 (by omega) p h hfalse

/-- A kept segment at the head of an instrumented split starts with the same
token as the sequence it splits. -/
theorem segs_head_kept (fuel : Nat) (seq : Sequence) (L : Nat) (s : Sequence)
    (rest : List (Bool × Sequence)) (hL : 1 ≤ L)
    (h : splitSequenceSegs fuel seq L = (true, s) :: rest) :
    s.token_types.head? = seq.token_types.head? := by
  cases fuel with
  | zero => simp [splitSequenceSegs] at h
  | succ n =>
    simp only [splitSequenceSegs] at h
    by_cases hfit : seq.len ≤ L
    · rw [if_pos hfit] at h
      simp only [List.cons.injEq, Prod.mk.injEq] at h
      obtain ⟨⟨-, h2⟩, -⟩ := h
      rw [h2]
    · rw [if_neg hfit] at h
      by_cases htext : seq.token_types[L]? = some TokenType.TEXT
      · rw [if_pos htext] at h
        simp only [List.cons.injEq, Prod.mk.injEq] at h
        obtain ⟨⟨-, h2⟩, -⟩ := h
        rw [← h2]
        show ((seq.split_at L).1).token_types.head? = seq.token_types.head?
        simp only [Sequence.split_at]
        exact head?_take_pos seq.token_types L hL
      · rw [if_neg htext] at h
        by_cases hpre : isFalsy (findLastTextBefore seq.token_types L) = true
        · rw [if_pos hpre] at h
          by_cases hend : isFalsy (findFirstTextFrom seq.token_types L seq.len) = true
          · rw [if_pos hend] at h
            simp at h
          · rw [if_neg hend] at h
            simp only [List.cons.injEq, Prod.mk.injEq] at h
            obtain ⟨⟨h1, -⟩, -⟩ := h
            exact absurd h1 (by simp)
        · rw [if_neg hpre] at h
          rw [Bool.not_eq_true] at hpre
          obtain ⟨m, hm⟩ := isFalsy_eq_false.mp hpre
          rw [hm] at h
          simp only [Option.getD_some, List.cons.injEq, Prod.mk.injEq] at h
          obtain ⟨⟨-, h2⟩, -⟩ := h
          rw [← h2]
          show ((seq.split_at (m + 1 + 1)).1).token_types.head? = seq.token_types.head?
          simp only [Sequence.split_at]
          exact head?_take_pos seq.token_types (m + 1 + 1) (by omega)

/-- Any two adjacent kept segments of an instrumented split cut at a TEXT
token: the first ends with TEXT or the second starts with TEXT. -/
theorem segs_chain :
    ∀ (fuel : Nat) (seq : Sequence) (L : Nat), 1 ≤ L → seq.WF → seq.len < fuel →
      List.Chain' (fun a b : Bool × Sequence =>
        a.1 = true → b.1 = true →
          a.2.token_types.getLast? = some TokenType.TEXT ∨
          b.2.token_types.head? = some TokenType.TEXT)
        (splitSequenceSegs fuel seq L) := by
  intro fuel
  induction fuel with
  | zero => intro seq L hL hwf hlt; exact absurd hlt (by omega)
  | succ n ih =>
    intro seq L hL hwf hlt
    simp only [splitSequenceSegs]
    by_cases hfit : seq.len ≤ L
    · simp only [if_pos hfit]
      exact List.chain'_singleton _
    · rw [if_neg hfit]
      by_cases htext : seq.token_types[L]? = some TokenType.TEXT
      · rw [if_pos htext]
        have hlen := (split_at_len seq L).2
        refine List.chain'_cons'.mpr
          ⟨?_, ih _ L hL (split_at_WF seq L hwf).2 (by omega)⟩
        intro y hy h1 h2
        right
        cases hseg : splitSequenceSegs n (seq.split_at L).2 L with
        | nil => rw [hseg] at hy; simp at hy
        | cons b rest2 =>
          rw [hseg] at hy
          simp at hy
          obtain ⟨bb, bs⟩ := b
          rw [← hy] at h2 ⊢
          simp only at h2
          rw [h2] at hseg
          have hh := segs_head_kept n _ L bs rest2 hL hseg
          rw [hh]
          show ((seq.split_at L).2).token_types.head? = some TokenType.TEXT
          simp only [Sequence.split_at]
          rw [List.head?_drop]
          exact htext
      · rw [if_neg htext]
        by_cases hpre : isFalsy (findLastTextBefore seq.token_types L) = true
        · rw [if_pos hpre]
          by_cases hend : isFalsy (findFirstTextFrom seq.token_types L seq.len) = true
          · rw [if_pos hend]
            exact List.chain'_singleton _
          · rw [if_neg hend]
            rw [Bool.not_eq_true] at hend
            obtain ⟨m, hm⟩ := isFalsy_eq_false.mp hend
            rw [hm]
            simp only [Option.getD_some]
            have hlen := (split_at_len seq (m + 1)).2
            refine List.chain'_cons'.mpr
              ⟨?_, ih _ L hL (split_at_WF seq _ hwf).2 (by omega)⟩
            intro y hy h1 h2
            exact absurd h1 (by simp)
        · rw [if_neg hpre]
          rw [Bool.not_eq_true] at hpre
          obtain ⟨m, hm⟩ := isFalsy_eq_false.mp hpre
          rw [hm]
          simp only [Option.getD_some]
          have hfacts := findLastTextBefore_some hm
          have hlen := (split_at_len seq (m + 1 + 1)).2
          refine List.chain'_cons'.mpr
            ⟨?_, ih _ L hL (split_at_WF seq _ hwf).2 (by omega)⟩
          intro y hy h1 h2
          left
          show ((seq.split_at (m + 1 + 1)).1).token_types.getLast? = some TokenType.TEXT
          simp only [Sequence.split_at]
          rw [getLast?_take_succ seq.token_types (m + 1) (by
            have h5 := hwf.1
            unfold Sequence.len at hfit
            omega)]
          exact hfacts.2.1

/-- C1 counterexample: on the four-token sequence TEXT, OP, END, TEXT with
limit 2, `split_sequence` returns only the final TEXT token: the leading TEXT
token (id 1, which belongs to no formula token span) and a formula span of
length exactly 2 (which does not exceed the limit) are both deleted, because
`if not pre_form_text_tok_id:` treats the TEXT token found at index 0 as "no
text token found" (Python falsiness of 0).  This refutes the claim that
oversized single formulas are the only content ever dropped. -/
theorem split_sequence_spec_counterexample :
    (splitSequence c1ceSeq 2).map Sequence.token_ids = [[4]] ∧
    c1ceSeq.token_types[0]? = some TokenType.TEXT ∧
    c1ceSeq.token_ids[0]? = some 1 ∧
    ¬ (1 : Int) ∈ ((splitSequence c1ceSeq 2).map Sequence.token_ids).flatten ∧
    c1ceSeq.token_types[1]? = some TokenType.OP ∧
    c1ceSeq.token_types[2]? = some TokenType.END ∧
    ¬ (2 : Int) ∈ ((splitSequence c1ceSeq 2).map Sequence.token_ids).flatten := by
  decide

/-- C1 (amended): for every lock-step sequence and every limit `L ≥ 1`:
every returned sub-sequence has length at most `L`; the instrumented
decomposition concatenates, channel-wise, back to the original sequence, and
its kept segments are exactly the returned sub-sequences; every dropped span
is longer than `L` and contains no TEXT token beyond its first position (the
first position may hold a TEXT token, dropped due to the Python falsiness of
index 0; a dropped span may also cover several adjacent formulas); and any
two adjacent kept segments cut at a TEXT token, never strictly inside a run
of formula tokens. -/
theorem split_sequence_split_spec (seq : Sequence) (L : Nat)
    (hL : 1 ≤ L) (hwf : seq.WF) :
    (∀ s ∈ splitSequence seq L, s.len ≤ L) ∧
    keptSegs (splitSequenceSegs (seq.len + 1) seq L) = splitSequence seq L ∧
    ((splitSequenceSegs (seq.len + 1) seq L).map (fun p => p.2.token_ids)).flatten =
      seq.token_ids ∧
    ((splitSequenceSegs (seq.len + 1) seq L).map (fun p => p.2.token_types)).flatten =
      seq.token_types ∧
    (∀ p ∈ splitSequenceSegs (seq.len + 1) seq L, p.1 = false →
      L < p.2.len ∧ ∀ j, 1 ≤ j → p.2.token_types[j]? ≠ some TokenType.TEXT) ∧
    List.Chain' (fun a b : Bool × Sequence =>
      a.1 = true → b.1 = true →
        a.2.token_types.getLast? = some TokenType.TEXT ∨
        b.2.token_types.head? = some TokenType.TEXT)
      (splitSequenceSegs (seq.len + 1) seq L) :=
  ⟨fun s hs => splitSequenceFuel_len_le _ seq L s hs,
   keptSegs_eq_splitSequenceFuel _ seq L,
   segs_flatten_chan Sequence.token_ids (fun _ _ => rfl) (fun _ _ => rfl)
     _ seq L hL (by omega),
   segs_flatten_chan Sequence.token_types (fun _ _ => rfl) (fun _ _ => rfl)
     _ seq L hL (by omega),
   segs_dropped _ seq L hL hwf (by omega),
   segs_chain _ seq L hL hwf (by omega)⟩

/-- Witness for the amended split theorem at a concrete five-token input. -/
theorem split_sequence_split_spec_witness :
    1 ≤ 2 ∧ c1wSeq.WF ∧
    ((∀ s ∈ splitSequence c1wSeq 2, s.len ≤ 2) ∧
    keptSegs (splitSequenceSegs (c1wSeq.len + 1) c1wSeq 2) = splitSequence c1wSeq 2 ∧
    ((splitSequenceSegs (c1wSeq.len + 1) c1wSeq 2).map (fun p => p.2.token_ids)).flatten =
      c1wSeq.token_ids ∧
    ((splitSequenceSegs (c1wSeq.len + 1) c1wSeq 2).map (fun p => p.2.token_types)).flatten =
      c1wSeq.token_types ∧
    (∀ p ∈ splitSequenceSegs (c1wSeq.len + 1) c1wSeq 2, p.1 = false →
      2 < p.2.len ∧ ∀ j, 1 ≤ j → p.2.token_types[j]? ≠ some TokenType.TEXT) ∧
    List.Chain' (fun a b : Bool × Sequence =>
      a.1 = true → b.1 = true →
        a.2.token_types.getLast? = some TokenType.TEXT ∨
        b.2.token_types.head? = some TokenType.TEXT)
      (splitSequenceSegs (c1wSeq.len + 1) c1wSeq 2)) :=
  ⟨by decide, by decide, split_sequence_split_spec c1wSeq 2 (by decide) (by decide)⟩

/-- Slicing an already-sliced channel with the full window changes nothing. -/
theorem sliceRows_self {α : Type} (rows : List (List α)) (a b : Nat) :
    sliceRows (sliceRows rows a b) 0 (b - a) = sliceRows rows a b := by
  unfold sliceRows
  rw [List.map_map]
  apply List.map_congr_left
  intro r _
  simp [List.take_take]

/-- C5 counterexample: with `trim_start = 1 > trim_end = 0` on a batch whose
only row has length 1, the recomputed sequence length is `0 - 1 = -1`,
whereas the claimed clamp of `b - a` to `[0, original - a]` is 0: the code
does not bound the recomputed length below by 0 when the offsets are
reversed. -/
theorem trim_batch_length_counterexample :
    (trim_batch c5Batch 1 0).sequence_lengths = [-1] ∧
    max 0 (min ((0 : Int) - 1) ((1 : Int) - 1)) = 0 ∧
    (-1 : Int) ≠ max 0 (min ((0 : Int) - 1) ((1 : Int) - 1)) := by
  decide

/-- C5 (amended): for offsets `a ≤ b`, the recomputed sequence length of
row `i` is exactly `clamp(b - a, 0, original - a)`, and `prompt_lengths` and
`cls_labels` pass through unchanged (the pass-through holds for all offsets;
the clamp form requires `a ≤ b`, otherwise the code returns the negative
`b - a` unclamped). -/
theorem trim_batch_length_recompute (B : CollatedBatch) (a b : Nat) (hab : a ≤ b)
    (i : Nat) (s : Int) (hs : B.sequence_lengths[i]? = some s) :
    (trim_batch B a b).sequence_lengths[i]? =
      some (max 0 (min ((b : Int) - (a : Int)) (s - (a : Int)))) ∧
    (trim_batch B a b).prompt_lengths = B.prompt_lengths ∧
    (trim_batch B a b).cls_labels = B.cls_labels := by
  refine ⟨?_, rfl, rfl⟩
  show (B.sequence_lengths.map _)[i]? = _
  rw [List.getElem?_map, hs]
  rw [Option.map_some']
  congr 1
  have hab' : (a : Int) ≤ (b : Int) := by omega
  omega

/-- Witness for the trim length-recompute theorem at a concrete batch. -/
theorem trim_batch_length_recompute_witness :
    (0 : Nat) ≤ 1 ∧ c5Batch.sequence_lengths[0]? = some 1 ∧
    ((trim_batch c5Batch 0 1).sequence_lengths[0]? =
      some (max 0 (min ((1 : Int) - (0 : Int)) ((1 : Int) - (0 : Int)))) ∧
    (trim_batch c5Batch 0 1).prompt_lengths = c5Batch.prompt_lengths ∧
    (trim_batch c5Batch 0 1).cls_labels = c5Batch.cls_labels) :=
  ⟨by decide, by decide, trim_batch_length_recompute c5Batch 0 1 (by decide) 0 1 (by decide)⟩

/-- C6: trimming a trimmed batch again with the full window `[0, b - a)` is
the identity on every channel, including the recomputed sequence lengths. -/
theorem trim_batch_idempotent (B : CollatedBatch) (a b : Nat) (hab : a ≤ b) :
    trim_batch (trim_batch B a b) 0 (b - a) = trim_batch B a b := by
  obtain ⟨src, ti, tt, pv, pl, pe, gt, us, am, sl, plens, gl, cl⟩ := B
  unfold trim_batch
  simp only [CollatedBatch.mk.injEq, eq_self_iff_true, true_and, and_true]
  refine ⟨sliceRows_self ti a b, sliceRows_self tt a b, sliceRows_self pv a b,
    sliceRows_self pl a b, ?_, ?_, ?_, sliceRows_self am a b, ?_, ?_⟩
  · cases pe <;> simp [sliceRows_self]
  · cases gt <;> simp [sliceRows_self]
  · cases us <;> simp [sliceRows_self]
  · rw [List.map_map]
    apply List.map_congr_left
    intro s _
    simp only [Function.comp_apply]
    push_cast
    omega
  · cases gl <;> simp [sliceRows_self]

/-- Witness for trim idempotence at a concrete batch and offsets. -/
theorem trim_batch_idempotent_witness :
    (1 : Nat) ≤ 3 ∧
    trim_batch (trim_batch c6Batch 1 3) 0 (3 - 1) = trim_batch c6Batch 1 3 :=
  ⟨by decide, trim_batch_idempotent c6Batch 1 3 (by decide)⟩

/-- The initial value is below a maximum fold. -/
theorem foldl_max_init_le (l : List Nat) : ∀ init : Nat, init ≤ l.foldl max init := by
  induction l with
  | nil => intro init; exact le_rfl
  | cons a l ih => intro init; exact le_trans (Nat.le_max_left init a) (ih (max init a))

/-- Every member is below a maximum fold. -/
theorem foldl_max_le_of_mem (l : List Nat) :
    ∀ init : Nat, ∀ x ∈ l, x ≤ l.foldl max init := by
  induction l with
  | nil => intro init x hx; simp at hx
  | cons a l ih =>
    intro init x hx
    rcases List.mem_cons.mp hx with h | h
    · subst h; exact le_trans (Nat.le_max_right init x) (foldl_max_init_le l (max init x))
    · exact ih (max init a) x h

/-- A maximum fold is the initial value or a member. -/
theorem foldl_max_mem (l : List Nat) :
    ∀ init : Nat, l.foldl max init = init ∨ l.foldl max init ∈ l := by
  induction l with
  | nil => intro init; exact Or.inl rfl
  | cons a l ih =>
    intro init
    rcases ih (max init a) with h | h
    · rcases max_choice init a with h2 | h2
      · rw [List.foldl_cons, h, h2]; exact Or.inl rfl
      · rw [List.foldl_cons, h, h2]; exact Or.inr (List.mem_cons_self a l)
    · exact Or.inr (List.mem_cons_of_mem a h)

/-- A padded row, by index. -/
theorem padRows_getElem? {α : Type} (rows : List (List α)) (v : α) (i : Nat) :
    (padRows rows v)[i]? =
      (rows[i]?).map (fun r => r ++ List.replicate (rowsMax rows - r.length) v) := by
  unfold padRows
  rw [List.getElem?_map]

/-- The row maximum of a mapped batch whose rows have the sequence lengths
is the batch maximum length. -/
theorem rowsMax_map_eq {α : Type} (batch : List Sequence) (f : Sequence → List α)
    (hlen : ∀ s ∈ batch, (f s).length = s.len) :
    rowsMax (batch.map f) = batchMaxLen batch := by
  unfold rowsMax batchMaxLen
  rw [List.foldl_map]
  suffices H : ∀ (init : Nat),
      batch.foldl (fun acc s => max acc (f s).length) init =
      batch.foldl (fun acc s => max acc s.len) init from H 0
  induction batch with
  | nil => intro init; rfl
  | cons a l ih =>
    intro init
    rw [List.foldl_cons, List.foldl_cons, hlen a (List.mem_cons_self a l)]
    exact ih (fun s hs => hlen s (List.mem_cons_of_mem a hs)) (max init a.len)

/-- Every sequence of a batch is at most the batch maximum length. -/
theorem batchMaxLen_le (batch : List Sequence) :
    ∀ t ∈ batch, t.len ≤ batchMaxLen batch := by
  intro t ht
  unfold batchMaxLen
  have := foldl_max_le_of_mem (batch.map Sequence.len) 0 t.len
    (List.mem_map_of_mem Sequence.len ht)
  rw [List.foldl_map] at this
  exact this

/-- The batch maximum length is attained by some sequence of a nonempty
batch. -/
theorem batchMaxLen_attained (batch : List Sequence) (h : batch ≠ []) :
    ∃ t ∈ batch, t.len = batchMaxLen batch := by
  have hfold := foldl_max_mem (batch.map Sequence.len) 0
  rw [List.foldl_map] at hfold
  rcases hfold with hzero | hmem
  · obtain ⟨t, ht⟩ := List.exists_mem_of_ne_nil batch h
    refine ⟨t, ht, ?_⟩
    have h1 := batchMaxLen_le batch t ht
    unfold batchMaxLen at *
    omega
  · obtain ⟨t, ht, hlen⟩ := List.mem_map.mp hmem
    exact ⟨t, ht, hlen⟩

/-- The token-ids channel of a collated batch. -/
theorem collate_token_ids (task : Option DownstreamTask) (opts : TrainOptions)
    (ep : List Int → Int → String → List Int) (gep : String → List Int)
    (batch : List Sequence) :
    (collate task opts ep gep batch).token_ids =
      padRows (batch.map Sequence.token_ids) PADDING_TOKEN_ID := rfl

/-- The token-types channel of a collated batch. -/
theorem collate_token_types (task : Option DownstreamTask) (opts : TrainOptions)
    (ep : List Int → Int → String → List Int) (gep : String → List Int)
    (batch : List Sequence) :
    (collate task opts ep gep batch).token_types =
      padRows (batch.map (fun s => s.token_types.map TokenType.toVal))
        TokenType.TEXT.toVal := rfl

/-- The attention-mask channel of a collated batch. -/
theorem collate_attention_mask (task : Option DownstreamTask) (opts : TrainOptions)
    (ep : List Int → Int → String → List Int) (gep : String → List Int)
    (batch : List Sequence) :
    (collate task opts ep gep batch).attention_mask =
      padRows (batch.map (fun s => List.replicate s.len (1 : Nat))) 0 := rfl

/-- C3: row `i` of the collated `token_ids` is sequence `i`'s ids followed by
`max_len - l_i` padding sentinels, row `i` of the attention mask is exactly
`l_i` ones followed by `max_len - l_i` zeros, and `max_len` is the maximum of
the batch's sequence lengths. -/
theorem collate_row_padding (task : Option DownstreamTask) (opts : TrainOptions)
    (ep : List Int → Int → String → List Int) (gep : String → List Int)
    (batch : List Sequence) (i : Nat) (seq : Sequence)
    (hseq : batch[i]? = some seq) :
    (collate task opts ep gep batch).token_ids[i]? =
      some (seq.token_ids ++
        List.replicate (batchMaxLen batch - seq.len) PADDING_TOKEN_ID) ∧
    (collate task opts ep gep batch).attention_mask[i]? =
      some (List.replicate seq.len 1 ++
        List.replicate (batchMaxLen batch - seq.len) 0) ∧
    (∀ t ∈ batch, t.len ≤ batchMaxLen batch) ∧
    (∃ t ∈ batch, t.len = batchMaxLen batch) := by
  have hmem : seq ∈ batch := by
    obtain ⟨hlt, rfl⟩ := List.getElem?_eq_some_iff.mp hseq
    exact List.getElem_mem hlt
  refine ⟨?_, ?_, batchMaxLen_le batch, batchMaxLen_attained batch ?_⟩
  · rw [collate_token_ids, padRows_getElem?, List.getElem?_map, hseq,
      rowsMax_map_eq batch Sequence.token_ids (fun s _ => rfl)]
    rfl
  · rw [collate_attention_mask, padRows_getElem?, List.getElem?_map, hseq,
      rowsMax_map_eq batch (fun s => List.replicate s.len (1 : Nat))
        (fun s _ => List.length_replicate s.len 1)]
    simp
  · intro hnil
    rw [hnil] at hseq
    simp at hseq

/-- Witness for the collation row theorem at a concrete two-element batch. -/
theorem collate_row_padding_witness :
    ([c3Seq1, c3Seq2][0]? = some c3Seq1) ∧
    ((collate none c3Opts c3ep c3gep [c3Seq1, c3Seq2]).token_ids[0]? =
      some (c3Seq1.token_ids ++
        List.replicate (batchMaxLen [c3Seq1, c3Seq2] - c3Seq1.len) PADDING_TOKEN_ID) ∧
    (collate none c3Opts c3ep c3gep [c3Seq1, c3Seq2]).attention_mask[0]? =
      some (List.replicate c3Seq1.len 1 ++
        List.replicate (batchMaxLen [c3Seq1, c3Seq2] - c3Seq1.len) 0) ∧
    (∀ t ∈ [c3Seq1, c3Seq2], t.len ≤ batchMaxLen [c3Seq1, c3Seq2]) ∧
    (∃ t ∈ [c3Seq1, c3Seq2], t.len = batchMaxLen [c3Seq1, c3Seq2])) :=
  ⟨by decide, collate_row_padding none c3Opts c3ep c3gep [c3Seq1, c3Seq2] 0 c3Seq1 (by decide)⟩

/-- C2 counterexample: collating a TEXT-token sequence of length 1 with a
two-token sequence pads the token-type row with `TokenType.TEXT.value` — the
padding entry at position (0,1) carries exactly the same value as the real
TEXT token at position (0,0), so the token-type padding value is not
distinguishable from every real token type. -/
theorem collate_padding_counterexample :
    (collate none c2Opts c2ep c2gep [c2Seq1, c2Seq2]).token_types =
      [[TokenType.TEXT.toVal, TokenType.TEXT.toVal],
       [TokenType.TEXT.toVal, TokenType.OP.toVal]] ∧
    c2Seq1.len = 1 ∧
    c2Seq1.token_types = [TokenType.TEXT] := by
  decide

/-- C2 (amended): beyond each sequence's true length, the `token_ids` channel
is padded with `PADDING_TOKEN_ID`, which is negative and therefore
distinguishable from every real (nonnegative) token id; but the
`token_types` channel is padded with `TokenType.TEXT.value`, a real token
type value (harmless only because consumers mask by length or by the
gen-label sentinel). -/
theorem collate_padding_sentinels (task : Option DownstreamTask)
    (opts : TrainOptions) (ep : List Int → Int → String → List Int)
    (gep : String → List Int) (batch : List Sequence) (i : Nat) (seq : Sequence)
    (j : Nat)
    (hwf : ∀ s ∈ batch, s.WF)
    (hids : ∀ s ∈ batch, ∀ x ∈ s.token_ids, (0 : Int) ≤ x)
    (hseq : batch[i]? = some seq)
    (hj1 : seq.len ≤ j) (hj2 : j < batchMaxLen batch) :
    (∃ row, (collate task opts ep gep batch).token_ids[i]? = some row ∧
      row[j]? = some PADDING_TOKEN_ID) ∧
    (∃ row, (collate task opts ep gep batch).token_types[i]? = some row ∧
      row[j]? = some TokenType.TEXT.toVal) ∧
    PADDING_TOKEN_ID < 0 ∧
    (∀ s ∈ batch, ∀ x ∈ s.token_ids, x ≠ PADDING_TOKEN_ID) := by
  have hmem : seq ∈ batch := by
    obtain ⟨hlt, rfl⟩ := List.getElem?_eq_some_iff.mp hseq
    exact List.getElem_mem hlt
  refine ⟨?_, ?_, by decide, ?_⟩
  · refine ⟨seq.token_ids ++
      List.replicate (batchMaxLen batch - seq.len) PADDING_TOKEN_ID, ?_, ?_⟩
    · rw [collate_token_ids, padRows_getElem?, List.getElem?_map, hseq,
        rowsMax_map_eq batch Sequence.token_ids (fun s _ => rfl)]
      rfl
    · rw [List.getElem?_append]
      rw [if_neg (by unfold Sequence.len at hj1; omega)]
      rw [List.getElem?_replicate]
      rw [if_pos (by unfold Sequence.len at hj1 ⊢; omega)]
  · refine ⟨seq.token_types.map TokenType.toVal ++
      List.replicate (batchMaxLen batch - seq.len) TokenType.TEXT.toVal, ?_, ?_⟩
    · rw [collate_token_types, padRows_getElem?, List.getElem?_map, hseq,
        rowsMax_map_eq batch (fun s => s.token_types.map TokenType.toVal)
          (fun s hs => by simpa using (hwf s hs).1)]
      simp only [Option.map_some']
      congr 2
      rw [List.length_map, (hwf seq hmem).1]
      rfl
    · have htlen : (seq.token_types.map TokenType.toVal).length = seq.len := by
        rw [List.length_map]; exact (hwf seq hmem).1
      rw [List.getElem?_append]
      rw [if_neg (by omega)]
      rw [List.getElem?_replicate]
      rw [if_pos (by omega)]
  · intro s hs x hx heq
    have h0 := hids s hs x hx
    rw [heq] at h0
    exact absurd h0 (by decide)

/-- Witness for the padding-sentinel theorem at a concrete two-element
batch: the padding position (0,1) of the batch. -/
theorem collate_padding_sentinels_witness :
    (∀ s ∈ [c2Seq1, c2Seq2], s.WF) ∧
    (∀ s ∈ [c2Seq1, c2Seq2], ∀ x ∈ s.token_ids, (0 : Int) ≤ x) ∧
    ([c2Seq1, c2Seq2][0]? = some c2Seq1) ∧
    c2Seq1.len ≤ 1 ∧ 1 < batchMaxLen [c2Seq1, c2Seq2] ∧
    ((∃ row, (collate none c2Opts c2ep c2gep [c2Seq1, c2Seq2]).token_ids[0]? = some row ∧
      row[1]? = some PADDING_TOKEN_ID) ∧
    (∃ row, (collate none c2Opts c2ep c2gep [c2Seq1, c2Seq2]).token_types[0]? = some row ∧
      row[1]? = some TokenType.TEXT.toVal) ∧
    PADDING_TOKEN_ID < 0 ∧
    (∀ s ∈ [c2Seq1, c2Seq2], ∀ x ∈ s.token_ids, x ≠ PADDING_TOKEN_ID)) :=
  ⟨by decide, by decide, by decide, by decide, by decide,
   collate_padding_sentinels none c2Opts c2ep c2gep [c2Seq1, c2Seq2] 0 c2Seq1 1
     (by decide) (by decide) (by decide) (by decide) (by decide)⟩

/-- The length of a generative label row equals its sequence's length. -/
theorem genLabelRow_length (s : Sequence) : (genLabelRow s).length = s.len := by
  unfold genLabelRow
  rw [List.length_append, List.length_replicate, List.length_drop]
  unfold Sequence.len
  omega

/-- The gen-labels channel of a collated batch under a generative task. -/
theorem collate_gen_labels_eq (t : DownstreamTask) (opts : TrainOptions)
    (ep : List Int → Int → String → List Int) (gep : String → List Int)
    (batch : List Sequence) (hcls : is_cls_task t = false) :
    (collate (some t) opts ep gep batch).gen_labels =
      if (batch.map genLabelRow).isEmpty then none
      else some (padRows (batch.map genLabelRow) PADDING_TOKEN_ID) := by
  simp only [collate, hcls, Bool.false_eq_true, if_false]

/-- C4: under a generative task, row `i` of `gen_labels` equals the padding
sentinel at every index before `prompt_length`, equals the token ids from
`prompt_length` up to the sequence's true length, and is the padding
sentinel beyond the true length. -/
theorem collate_gen_label_masking (t : DownstreamTask) (opts : TrainOptions)
    (ep : List Int → Int → String → List Int) (gep : String → List Int)
    (batch : List Sequence) (i : Nat) (seq : Sequence) (p : Nat)
    (hcls : is_cls_task t = false)
    (hseq : batch[i]? = some seq)
    (hp : seq.meta.prompt_length = some p) :
    ∃ G row, (collate (some t) opts ep gep batch).gen_labels = some G ∧
      G[i]? = some row ∧
      row.length = batchMaxLen batch ∧
      (∀ j, j < p → j < batchMaxLen batch → row[j]? = some PADDING_TOKEN_ID) ∧
      (∀ j, p ≤ j → j < seq.len → row[j]? = seq.token_ids[j]?) ∧
      (∀ j, seq.len ≤ j → j < batchMaxLen batch → row[j]? = some PADDING_TOKEN_ID) := by
  have hmem : seq ∈ batch := by
    obtain ⟨hlt, rfl⟩ := List.getElem?_eq_some_iff.mp hseq
    exact List.getElem_mem hlt
  have hML := batchMaxLen_le batch seq hmem
  have hM := rowsMax_map_eq batch genLabelRow (fun s _ => genLabelRow_length s)
  have hgrow : genLabelRow seq =
      List.replicate (min p seq.len) PADDING_TOKEN_ID ++ seq.token_ids.drop p := by
    unfold genLabelRow
    rw [hp, Option.getD_some]
  have hABlen : (List.replicate (min p seq.len) PADDING_TOKEN_ID ++
      seq.token_ids.drop p).length = seq.len := by
    rw [← hgrow]; exact genLabelRow_length seq
  refine ⟨padRows (batch.map genLabelRow) PADDING_TOKEN_ID,
    (List.replicate (min p seq.len) PADDING_TOKEN_ID ++ seq.token_ids.drop p) ++
      List.replicate (batchMaxLen batch - seq.len) PADDING_TOKEN_ID,
    ?_, ?_, ?_, ?_, ?_, ?_⟩
  · rw [collate_gen_labels_eq t opts ep gep batch hcls]
    rw [if_neg (by cases batch with
      | nil => rw [List.getElem?_nil] at hseq; exact absurd hseq (by simp)
      | cons a l => simp)]
  · rw [padRows_getElem?, List.getElem?_map, hseq, hM]
    simp only [Option.map_some']
    rw [hgrow, hABlen]
  · rw [List.length_append, hABlen, List.length_replicate]
    omega
  · intro j hjp hjM
    by_cases hjl : j < seq.len
    · rw [List.append_assoc, List.getElem?_append,
        if_pos (by rw [List.length_replicate]; omega),
        List.getElem?_replicate, if_pos (by omega)]
    · rw [List.getElem?_append, if_neg (by rw [hABlen]; omega),
        List.getElem?_replicate, if_pos (by rw [hABlen]; omega)]
  · intro j hjp hjl
    have hpl : p ≤ seq.len := by omega
    rw [List.getElem?_append, if_pos (by rw [hABlen]; omega),
      List.getElem?_append, if_neg (by rw [List.length_replicate]; omega),
      List.length_replicate]
    have hmin : min p seq.len = p := by omega
    rw [hmin, List.getElem?_drop]
    congr 1
    omega
  · intro j hjl hjM
    rw [List.getElem?_append, if_neg (by rw [hABlen]; omega),
      List.getElem?_replicate, if_pos (by rw [hABlen]; omega)]

/-- Witness for the gen-label masking theorem at a concrete two-element
generative batch. -/
theorem collate_gen_label_masking_witness :
    is_cls_task DownstreamTask.HEADLINES = false ∧
    ([c4Seq, c4Seq2][0]? = some c4Seq) ∧
    c4Seq.meta.prompt_length = some 2 ∧
    (∃ G row,
      (collate (some DownstreamTask.HEADLINES) c4Opts c4ep c4gep
        [c4Seq, c4Seq2]).gen_labels = some G ∧
      G[0]? = some row ∧
      row.length = batchMaxLen [c4Seq, c4Seq2] ∧
      (∀ j, j < 2 → j < batchMaxLen [c4Seq, c4Seq2] → row[j]? = some PADDING_TOKEN_ID) ∧
      (∀ j, 2 ≤ j → j < c4Seq.len → row[j]? = c4Seq.token_ids[j]?) ∧
      (∀ j, c4Seq.len ≤ j → j < batchMaxLen [c4Seq, c4Seq2] →
        row[j]? = some PADDING_TOKEN_ID)) :=
  ⟨rfl, by decide, by decide,
   collate_gen_label_masking DownstreamTask.HEADLINES c4Opts c4ep c4gep
     [c4Seq, c4Seq2] 0 c4Seq 2 rfl (by decide) (by decide)⟩

/-- Concatenation of sequences concatenates token types. -/
theorem append_token_types (a b : Sequence) :
    (a.append b).token_types = a.token_types ++ b.token_types := rfl

/-- Concatenation of sequences concatenates token ids. -/
theorem append_token_ids (a b : Sequence) :
    (a.append b).token_ids = a.token_ids ++ b.token_ids := rfl

/-- The missing-formula counter of the chunk loop counts exactly the
non-final chunk indices whose stringified index is absent from the map. -/
theorem tokenizeChunksGo_count (tt : TextTokenizer) (tf : FormulaTokenizer)
    (df : FormulaDecoder) (opts : TrainOptions) (formulas : FormulaMap) :
    ∀ (chunks : List String) (idx : Nat),
      (tokenizeChunksGo tt tf df opts formulas chunks idx).2 =
        (List.range' idx (chunks.length - 1)).countP
          (fun i => (formulas (toString i)).isNone) := by
  intro chunks
  induction chunks with
  | nil => intro idx; simp [tokenizeChunksGo]
  | cons c rest ih =>
    intro idx
    simp only [tokenizeChunksGo]
    by_cases hrest : rest.isEmpty
    · rw [if_pos hrest]
      obtain rfl : rest = [] := List.isEmpty_iff.mp hrest
      simp
    · rw [if_neg hrest]
      have hpos : 0 < rest.length := List.length_pos.mpr
        (fun h => by rw [h] at hrest; simp at hrest)
      obtain ⟨m, hm⟩ : ∃ m, rest.length = m + 1 := ⟨rest.length - 1, by omega⟩
      have hrange : List.range' idx ((c :: rest).length - 1) =
          idx :: List.range' (idx + 1) m := by
        simp only [List.length_cons, Nat.add_sub_cancel, hm]
        rfl
      cases hf : formulas (toString idx) with
      | none =>
        simp only [hf]
        rw [hrange, List.countP_cons, ih (idx + 1)]
        simp [hf, hm]
      | some formula =>
        simp only [hf]
        rw [hrange, List.countP_cons, ih (idx + 1)]
        simp [hf, hm]

/-- In structured mode, the chunk loop emits exactly one formula marker of
each kind per present formula and none for a missing one (assuming the
external formula tokenizer emits no marker tokens itself). -/
theorem tokenizeChunksGo_marker_count (tt : TextTokenizer) (tf : FormulaTokenizer)
    (df : FormulaDecoder) (opts : TrainOptions) (formulas : FormulaMap)
    (mk : TokenType)
    (hbase : opts.baseline = false)
    (hmk : mk = TokenType.START_FORMULA ∨ mk = TokenType.END_FORMULA)
    (hform : ∀ o : OPT, mk ∉ (tf o opts).token_types) :
    ∀ (chunks : List String) (idx : Nat),
      ((tokenizeChunksGo tt tf df opts formulas chunks idx).1).token_types.count mk =
        (List.range' idx (chunks.length - 1)).countP
          (fun i => (formulas (toString i)).isSome) := by
  have htextcount : ∀ ids : List Int,
      (mkTextSegment opts ids).token_types.count mk = 0 := by
    intro ids
    show (List.replicate ids.length TokenType.TEXT).count mk = 0
    rcases hmk with h | h <;> simp [h, List.count_replicate]
  intro chunks
  induction chunks with
  | nil => intro idx; simp [tokenizeChunksGo, Sequence.empty]
  | cons c rest ih =>
    intro idx
    simp only [tokenizeChunksGo]
    by_cases hrest : rest.isEmpty
    · rw [if_pos hrest]
      obtain rfl : rest = [] := List.isEmpty_iff.mp hrest
      simp [htextcount (tt c)]
    · rw [if_neg hrest]
      have hpos : 0 < rest.length := List.length_pos.mpr
        (fun h => by rw [h] at hrest; simp at hrest)
      obtain ⟨m, hm⟩ : ∃ m, rest.length = m + 1 := ⟨rest.length - 1, by omega⟩
      have hrange : List.range' idx ((c :: rest).length - 1) =
          idx :: List.range' (idx + 1) m := by
        simp only [List.length_cons, Nat.add_sub_cancel, hm]
        rfl
      cases hf : formulas (toString idx) with
      | none =>
        simp only [hf]
        rw [hrange, List.countP_cons]
        rw [append_token_types, List.count_append, htextcount (tt c), ih (idx + 1)]
        simp [hf, hm]
      | some formula =>
        simp only [hf]
        rw [hrange, List.countP_cons]
        rw [append_token_types, append_token_types, List.count_append,
          List.count_append, htextcount (tt c), ih (idx + 1)]
        have hfseg : (formulaSegment tt tf df opts formula).token_types.count mk = 1 := by
          unfold formulaSegment
          rw [hbase]
          simp only [Bool.false_eq_true, if_false]
          rw [append_token_types, append_token_types, List.count_append,
            List.count_append]
          have hopt : (tf formula.opt opts).token_types.count mk = 0 :=
            List.count_eq_zero.mpr (hform formula.opt)
          rw [hopt]
          rcases hmk with h | h <;> subst h <;> simp [mkMarkerSegment]
        rw [hfseg]
        simp [hf, hm]
        omega

/-- With an empty formula map, the chunk loop emits only TEXT tokens. -/
theorem tokenizeChunksGo_all_text (tt : TextTokenizer) (tf : FormulaTokenizer)
    (df : FormulaDecoder) (opts : TrainOptions) :
    ∀ (chunks : List String) (idx : Nat),
      ∀ t ∈ ((tokenizeChunksGo tt tf df opts (fun _ => none) chunks idx).1).token_types,
        t = TokenType.TEXT := by
  intro chunks
  induction chunks with
  | nil => intro idx t ht; simp [tokenizeChunksGo, Sequence.empty] at ht
  | cons c rest ih =>
    intro idx t ht
    simp only [tokenizeChunksGo] at ht
    by_cases hrest : rest.isEmpty
    · rw [if_pos hrest] at ht
      exact List.eq_of_mem_replicate ht
    · rw [if_neg hrest] at ht
      rw [append_token_types] at ht
      rcases List.mem_append.mp ht with h | h
      · exact List.eq_of_mem_replicate h
      · exact ih (idx + 1) t h

/-- C7: the missing-formula count of `tokenize_sequence` equals the number of
placeholder occurrences whose stringified index is absent from the formula
map; in structured mode each present formula emits exactly one START_FORMULA
and one END_FORMULA marker and skipped placeholders emit none; and with an
empty formula map the output contains only TEXT tokens. -/
theorem tokenize_sequence_missing_formulas (tt : TextTokenizer)
    (tf : FormulaTokenizer) (df : FormulaDecoder) (name text : String)
    (formulas : FormulaMap) (opts : TrainOptions) :
    (tokenize_sequence tt tf df name text formulas opts).2 =
      countMissingFormulas text formulas ∧
    (opts.baseline = false →
      (∀ o : OPT, TokenType.START_FORMULA ∉ (tf o opts).token_types ∧
        TokenType.END_FORMULA ∉ (tf o opts).token_types) →
      ((tokenize_sequence tt tf df name text formulas opts).1).token_types.count
          TokenType.START_FORMULA =
        (List.range (numPlaceholders text)).countP
          (fun i => (formulas (toString i)).isSome) ∧
      ((tokenize_sequence tt tf df name text formulas opts).1).token_types.count
          TokenType.END_FORMULA =
        (List.range (numPlaceholders text)).countP
          (fun i => (formulas (toString i)).isSome)) ∧
    ((formulas = fun _ => none) →
      ∀ t ∈ ((tokenize_sequence tt tf df name text formulas opts).1).token_types,
        t = TokenType.TEXT) := by
  have htypes : ((tokenize_sequence tt tf df name text formulas opts).1).token_types =
      ((tokenizeChunksGo tt tf df opts formulas
        (text.splitOn FORMULA_IDENTIFIER) 0).1).token_types := rfl
  refine ⟨?_, fun hbase hform => ⟨?_, ?_⟩, ?_⟩
  · show (tokenizeChunksGo tt tf df opts formulas
      (text.splitOn FORMULA_IDENTIFIER) 0).2 = _
    rw [tokenizeChunksGo_count]
    unfold countMissingFormulas numPlaceholders
    rw [List.range_eq_range']
  · rw [htypes, tokenizeChunksGo_marker_count tt tf df opts formulas
      TokenType.START_FORMULA hbase (Or.inl rfl) (fun o => (hform o).1)]
    unfold numPlaceholders
    rw [List.range_eq_range']
  · rw [htypes, tokenizeChunksGo_marker_count tt tf df opts formulas
      TokenType.END_FORMULA hbase (Or.inr rfl) (fun o => (hform o).2)]
    unfold numPlaceholders
    rw [List.range_eq_range']
  · intro hempty
    rw [htypes, hempty]
    exact tokenizeChunksGo_all_text tt tf df opts (text.splitOn FORMULA_IDENTIFIER) 0

/-- Witness for the tokenizer theorem: a structured-mode configuration, a
text with one placeholder, and the empty formula map. -/
theorem tokenize_sequence_missing_formulas_witness :
    (tokenize_sequence c7tt c7tf c7df "nm" c7Text c7Map c7Opts).2 =
      countMissingFormulas c7Text c7Map ∧
    (((tokenize_sequence c7tt c7tf c7df "nm" c7Text c7Map c7Opts).1).token_types.count
        TokenType.START_FORMULA =
      (List.range (numPlaceholders c7Text)).countP
        (fun i => (c7Map (toString i)).isSome) ∧
    ((tokenize_sequence c7tt c7tf c7df "nm" c7Text c7Map c7Opts).1).token_types.count
        TokenType.END_FORMULA =
      (List.range (numPlaceholders c7Text)).countP
        (fun i => (c7Map (toString i)).isSome)) ∧
    (∀ t ∈ ((tokenize_sequence c7tt c7tf c7df "nm" c7Text c7Map c7Opts).1).token_types,
      t = TokenType.TEXT) :=
  have h := tokenize_sequence_missing_formulas c7tt c7tf c7df "nm" c7Text c7Map c7Opts
  ⟨h.1, h.2.1 rfl (fun _ => ⟨by simp [c7tf], by simp [c7tf]⟩), h.2.2 rfl⟩

/-- The stored data of the problem-solving builder is, sample by sample, the
untrimmed concatenation of the three tokenized components with the problem
length as prompt metadata. -/
theorem problemSolvingInit_data (tt : TextTokenizer) (tf : FormulaTokenizer)
    (df : FormulaDecoder) (opts : TrainOptions) :
    ∀ samples : List SolvingTaskSample,
      (problemSolvingInit tt tf df opts samples).1 =
        samples.map (fun sample =>
          { solvingFullSeq tt tf df opts sample with
            meta := ⟨some (solvingProblemSeq tt tf df opts sample).1.len,
                     none, none, none⟩ }) := by
  intro samples
  induction samples with
  | nil => rfl
  | cons sample rest ih =>
    simp only [problemSolvingInit, List.map_cons]
    rw [ih]
    rfl

/-- The trimmed-sequences counter of the problem-solving builder counts the
samples whose full concatenation exceeds the maximum length. -/
theorem problemSolvingInit_trimmed (tt : TextTokenizer) (tf : FormulaTokenizer)
    (df : FormulaDecoder) (opts : TrainOptions) :
    ∀ samples : List SolvingTaskSample,
      (problemSolvingInit tt tf df opts samples).2.1 =
        samples.countP (fun sample =>
          decide (opts.max_seq_len < (solvingFullSeq tt tf df opts sample).len)) := by
  intro samples
  induction samples with
  | nil => rfl
  | cons sample rest ih =>
    simp only [problemSolvingInit, List.countP_cons]
    rw [ih]
    by_cases h : opts.max_seq_len < (solvingFullSeq tt tf df opts sample).len
    · have hd : decide (opts.max_seq_len <
          (solvingFullSeq tt tf df opts sample).len) = true := decide_eq_true h
      rw [if_pos (by exact h), hd, if_pos rfl]
      omega
    · have hd : decide (opts.max_seq_len <
          (solvingFullSeq tt tf df opts sample).len) = false := decide_eq_false h
      rw [if_neg (by exact h), hd, if_neg (by simp)]
      omega

/-- C8: every problem-solving sample is stored as the full concatenation of
its tokenized problem, steps, and answer sequences — no token of any
component is removed even when the total length exceeds `max_seq_len` —
with `prompt_length` equal to the length of the problem sequence alone, and
overflow only increments the trimmed-sequences counter. -/
theorem problem_solving_preserves_tokens (tt : TextTokenizer)
    (tf : FormulaTokenizer) (df : FormulaDecoder) (opts : TrainOptions)
    (samples : List SolvingTaskSample) (i : Nat) (sample : SolvingTaskSample)
    (hs : samples[i]? = some sample) :
    ∃ entry, (problemSolvingInit tt tf df opts samples).1[i]? = some entry ∧
      entry.token_ids =
        ((solvingProblemSeq tt tf df opts sample).1.token_ids ++
          (solvingStepsSeq tt tf df opts sample).1.token_ids) ++
          (solvingAnswerSeq tt tf df opts sample).1.token_ids ∧
      entry.token_types =
        ((solvingProblemSeq tt tf df opts sample).1.token_types ++
          (solvingStepsSeq tt tf df opts sample).1.token_types) ++
          (solvingAnswerSeq tt tf df opts sample).1.token_types ∧
      entry.meta.prompt_length = some (solvingProblemSeq tt tf df opts sample).1.len ∧
      (problemSolvingInit tt tf df opts samples).2.1 =
        samples.countP (fun smp =>
          decide (opts.max_seq_len < (solvingFullSeq tt tf df opts smp).len)) := by
  refine ⟨{ solvingFullSeq tt tf df opts sample with
      meta := ⟨some (solvingProblemSeq tt tf df opts sample).1.len,
               none, none, none⟩ }, ?_, rfl, rfl, rfl,
    problemSolvingInit_trimmed tt tf df opts samples⟩
  rw [problemSolvingInit_data, List.getElem?_map, hs]
  rfl

/-- Witness for the problem-solving preservation theorem at a concrete
one-sample dataset whose concatenation exceeds the length budget. -/
theorem problem_solving_preserves_tokens_witness :
    ([c8Sample][0]? = some c8Sample) ∧
    (∃ entry, (problemSolvingInit c8tt c8tf c8df c8Opts [c8Sample]).1[0]? = some entry ∧
      entry.token_ids =
        ((solvingProblemSeq c8tt c8tf c8df c8Opts c8Sample).1.token_ids ++
          (solvingStepsSeq c8tt c8tf c8df c8Opts c8Sample).1.token_ids) ++
          (solvingAnswerSeq c8tt c8tf c8df c8Opts c8Sample).1.token_ids ∧
      entry.token_types =
        ((solvingProblemSeq c8tt c8tf c8df c8Opts c8Sample).1.token_types ++
          (solvingStepsSeq c8tt c8tf c8df c8Opts c8Sample).1.token_types) ++
          (solvingAnswerSeq c8tt c8tf c8df c8Opts c8Sample).1.token_types ∧
      entry.meta.prompt_length =
        some (solvingProblemSeq c8tt c8tf c8df c8Opts c8Sample).1.len ∧
      (problemSolvingInit c8tt c8tf c8df c8Opts [c8Sample]).2.1 =
        [c8Sample].countP (fun smp =>
          decide (c8Opts.max_seq_len < (solvingFullSeq c8tt c8tf c8df c8Opts smp).len))) :=
  ⟨rfl, problem_solving_preserves_tokens c8tt c8tf c8df c8Opts [c8Sample] 0 c8Sample rfl⟩

/-- Every example sequence chosen by the budgeted selection loop is the
scaffold around some candidate of the input list. -/
theorem answerScoringSelect_mem (st : AnswerScoringState) (maxLen : Nat) :
    ∀ (l : List Sequence) (base : Nat) (es : Sequence),
      es ∈ answerScoringSelect st maxLen base l →
      ∃ e ∈ l, es = (st.example_prefix_seq.append e).append
        (st.grade_to_score_seq (e.meta.label.getD 0)) := by
  intro l
  induction l with
  | nil => intro base es hes; simp [answerScoringSelect] at hes
  | cons e rest ih =>
    intro base es hes
    simp only [answerScoringSelect] at hes
    split at hes
    · simp at hes
    · rcases List.mem_cons.mp hes with h | h
      · exact ⟨e, List.mem_cons_self e rest, h⟩
      · obtain ⟨e2, hmem, heq⟩ := ih _ es h
        exact ⟨e2, List.mem_cons_of_mem e hmem, heq⟩

/-- One gathering step only adds examples drawn from the filtered candidate
pool, which excludes the scored sample's `problem_log_id`. -/
theorem answerScoringGatherStep_inv (st : AnswerScoringState)
    (rsample : List Sequence → Nat → List Sequence)
    (sample : Sequence) (bank : Nat → List Sequence)
    (hrs : ∀ l n, ∀ x ∈ rsample l n, x ∈ l)
    (acc : List Sequence × List Sequence) (grade : Nat)
    (hacc : ∀ y, (y ∈ acc.1 ∨ y ∈ acc.2) →
      y.meta.problem_log_id ≠ sample.meta.problem_log_id) :
    ∀ y, (y ∈ (answerScoringGatherStep st rsample sample bank acc grade).1 ∨
          y ∈ (answerScoringGatherStep st rsample sample bank acc grade).2) →
      y.meta.problem_log_id ≠ sample.meta.problem_log_id := by
  intro y hy
  unfold answerScoringGatherStep at hy
  dsimp only at hy
  by_cases hemp : ((bank grade).filter
      (fun e => e.meta.problem_log_id != sample.meta.problem_log_id)).isEmpty = true
  · simp only [if_pos hemp] at hy
    exact hacc y hy
  · simp only [if_neg hemp] at hy
    have hchosen : ∀ z, z ∈ rsample
        ((bank grade).filter
          (fun e => e.meta.problem_log_id != sample.meta.problem_log_id))
        (min ((bank grade).filter
          (fun e => e.meta.problem_log_id != sample.meta.problem_log_id)).length 5) →
        z.meta.problem_log_id ≠ sample.meta.problem_log_id := by
      intro z hz
      have hmem := hrs _ _ z hz
      have hpred := (List.mem_filter.mp hmem).2
      simpa using hpred
    rcases hy with h | h
    · rcases List.mem_append.mp h with h2 | h2
      · exact hacc y (Or.inl h2)
      · exact hchosen y (List.take_subset _ _ h2)
    · rcases List.mem_append.mp h with h2 | h2
      · exact hacc y (Or.inr h2)
      · exact hchosen y (List.drop_subset _ _ h2)

/-- Every gathered example differs from the scored sample in
`problem_log_id`. -/
theorem answerScoringGather_mem (st : AnswerScoringState)
    (rsample : List Sequence → Nat → List Sequence)
    (sample : Sequence) (bank : Nat → List Sequence)
    (hrs : ∀ l n, ∀ x ∈ rsample l n, x ∈ l) (x : Sequence)
    (hx : x ∈ (answerScoringGather st rsample sample bank).1 ∨
          x ∈ (answerScoringGather st rsample sample bank).2) :
    x.meta.problem_log_id ≠ sample.meta.problem_log_id := by
  unfold answerScoringGather at hx
  suffices H : ∀ (grades : List Nat) (acc : List Sequence × List Sequence),
      (∀ y, (y ∈ acc.1 ∨ y ∈ acc.2) →
        y.meta.problem_log_id ≠ sample.meta.problem_log_id) →
      ∀ z, (z ∈ (grades.foldl (answerScoringGatherStep st rsample sample bank) acc).1 ∨
            z ∈ (grades.foldl (answerScoringGatherStep st rsample sample bank) acc).2) →
        z.meta.problem_log_id ≠ sample.meta.problem_log_id from
    H (List.range st.options.num_classes) ([], []) (by simp) x hx
  intro grades
  induction grades with
  | nil => intro acc hacc z hz; exact hacc z hz
  | cons g rest ih =>
    intro acc hacc z hz
    rw [List.foldl_cons] at hz
    exact ih _ (answerScoringGatherStep_inv st rsample sample bank hrs acc g hacc) z hz

/-- Every member of the gathered groups differs from the scored sample in
`problem_log_id`. -/
theorem answerScoringGroups_mem (st : AnswerScoringState)
    (rsample : List Sequence → Nat → List Sequence) (index : Nat)
    (hrs : ∀ l n, ∀ x ∈ rsample l n, x ∈ l) (x : Sequence)
    (hx : x ∈ (answerScoringGroups st rsample index).1 ∨
          x ∈ (answerScoringGroups st rsample index).2) :
    x.meta.problem_log_id ≠
      (st.data.getD index (Sequence.empty "")).meta.problem_log_id := by
  unfold answerScoringGroups at hx
  dsimp only at hx
  cases hbank : st.example_bank
      ((st.data.getD index (Sequence.empty "")).meta.problem_id.getD 0) with
  | none =>
    rw [hbank] at hx
    simp at hx
  | some bank =>
    rw [hbank] at hx
    exact answerScoringGather_mem st rsample _ bank hrs x hx

/-- C10: the sequence returned by `AnswerScoringDataset.__getitem__` is the
assembly of the static scaffold, the problem, the chosen worked examples and
the scored answer, and every chosen worked example is built around a stored
answer whose `problem_log_id` differs from that of the answer being scored —
for every random-sampling and shuffling oracle that only rearranges or picks
from its input. -/
theorem answer_scoring_excludes_own_sample (st : AnswerScoringState)
    (rsample : List Sequence → Nat → List Sequence)
    (rshuffle : List Sequence → List Sequence) (index : Nat)
    (hrs : ∀ l n, ∀ x ∈ rsample l n, x ∈ l)
    (hrsh : ∀ l, ∀ x ∈ rshuffle l, x ∈ l) :
    answerScoringGetItem st rsample rshuffle index =
      answerScoringAssemble st (st.data.getD index (Sequence.empty ""))
        (st.problems ((st.data.getD index (Sequence.empty "")).meta.problem_id.getD 0))
        (answerScoringExampleSeqs st rsample rshuffle index) ∧
    ∀ es ∈ answerScoringExampleSeqs st rsample rshuffle index,
      ∃ e, es = (st.example_prefix_seq.append e).append
          (st.grade_to_score_seq (e.meta.label.getD 0)) ∧
        e.meta.problem_log_id ≠
          (st.data.getD index (Sequence.empty "")).meta.problem_log_id := by
  refine ⟨rfl, ?_⟩
  intro es hes
  unfold answerScoringExampleSeqs at hes
  obtain ⟨e, hemem, heq⟩ := answerScoringSelect_mem st _ _ _ es hes
  refine ⟨e, heq, ?_⟩
  rcases List.mem_append.mp hemem with h | h
  · exact answerScoringGroups_mem st rsample index hrs e (Or.inl (hrsh _ e h))
  · exact answerScoringGroups_mem st rsample index hrs e (Or.inr (hrsh _ e h))

/-- Witness for the answer-scoring exclusion theorem at a concrete one-sample
state with identity oracles. -/
theorem answer_scoring_excludes_own_sample_witness :
    answerScoringGetItem c10St (fun l _ => l) (fun l => l) 0 =
      answerScoringAssemble c10St (c10St.data.getD 0 (Sequence.empty ""))
        (c10St.problems ((c10St.data.getD 0 (Sequence.empty "")).meta.problem_id.getD 0))
        (answerScoringExampleSeqs c10St (fun l _ => l) (fun l => l) 0) ∧
    ∀ es ∈ answerScoringExampleSeqs c10St (fun l _ => l) (fun l => l) 0,
      ∃ e, es = (c10St.example_prefix_seq.append e).append
          (c10St.grade_to_score_seq (e.meta.label.getD 0)) ∧
        e.meta.problem_log_id ≠
          (c10St.data.getD 0 (Sequence.empty "")).meta.problem_log_id :=
  answer_scoring_excludes_own_sample c10St (fun l _ => l) (fun l => l) 0
    (fun _ _ _ h => h) (fun _ _ h => h)

end MathGPT
